import Mathlib

/-!
Verification development for the CodeMirror MediaWiki stream tokenizer and
fold-range resolver.  The tokenizer (class CodeMirrorModeMediaWiki) is embedded
shallowly: the function-valued `state.tokenize` continuations are
defunctionalized into the inductive type `Tk`, the per-instance mutable fields
of the class (bold and italic flags, rollback candidates, the buffered-token
queue, and the mutable variables captured by the `eatLinkText` closure) live in
the `World` structure, and the CodeMirror `StringStream` is the `MStream`
structure (one line of text plus a cursor).  JavaScript regular expressions are
translated into explicit character-list matchers, one definition per regex.
The fold-range resolver of fold.ts is embedded over a list of named spans.
-/

namespace MwMode

/-! ## Character-list helpers -/

/-- Length of the longest prefix of `l` whose characters satisfy `p`. -/
def countWhile (p : Char → Bool) (l : List Char) : Nat :=
  (l.takeWhile p).length

/-- Index of the first occurrence of `pat` as a contiguous sub-list of `l`
(JavaScript `String.indexOf`), or `none`. -/
def findSub (l pat : List Char) : Option Nat :=
  if pat.isPrefixOf l then some 0
  else
    match l with
    | [] => none
    | _ :: t => (findSub t pat).map (· + 1)

/-- Sub-string containment test (JavaScript `String.includes`). -/
def containsSub (l pat : List Char) : Bool :=
  (findSub l pat).isSome

/-- Case-insensitive prefix test (used for the `i`-flagged regexes). -/
def isPrefixOfCI : List Char → List Char → Bool
  | [], _ => true
  | _ :: _, [] => false
  | c :: cs, d :: ds => (c.toLower == d.toLower) && isPrefixOfCI cs ds

/-- The JavaScript `\s` character class restricted to the characters that can
occur in this development (space, tab, CR, LF, vertical tab, form feed and
no-break space; more exotic Unicode space characters are not modelled). -/
def jsSpace (c : Char) : Bool :=
  c == ' ' || c == '\t' || c == '\n' || c == '\r' ||
  c == '\x0b' || c == '\x0c' || c == ' '

/-- The JavaScript `\w` character class: `[A-Za-z0-9_]`. -/
def jsWord (c : Char) : Bool :=
  c.isAlpha || c.isDigit || c == '_'

/-! ## The stream

`MStream` models the CodeMirror `StringStream`: one line of text and a cursor.
`str` is mutable in the source (`eatExtTagArea` truncates it and `eatExtTokens`
restores it), so it is part of the stream value here.  The source manipulates
`pos` as a JavaScript number; `backUp` past the line start cannot occur on the
runs considered here, so `pos` is a `Nat` with truncated subtraction. -/

structure MStream where
  str : List Char
  pos : Nat
deriving DecidableEq, Repr

namespace MStream

/-- `stream.sol()`: cursor at the start of the line. -/
def sol (st : MStream) : Bool := st.pos == 0

/-- `stream.eol()`: cursor at or past the end of the line. -/
def eol (st : MStream) : Bool := st.str.length ≤ st.pos

/-- The text from the cursor to the end of the line. -/
def rest (st : MStream) : List Char := st.str.drop st.pos

/-- `stream.peek()`. -/
def peekCh (st : MStream) : Option Char := st.str.get? st.pos

/-- Advance the cursor by `n` characters (may go past the end, as the source's
`stream.pos++` does). -/
def adv (st : MStream) (n : Nat) : MStream := { st with pos := st.pos + n }

/-- `stream.next()`: consume and return one character, or do nothing at eol. -/
def nextCh (st : MStream) : Option Char × MStream :=
  match st.peekCh with
  | some c => (some c, st.adv 1)
  | none => (none, st)

/-- Consume `n` characters via repeated `stream.next()`: the cursor does not
move past the end of the line. -/
def consumeN (st : MStream) (n : Nat) : MStream :=
  if st.pos + n ≤ st.str.length then st.adv n
  else { st with pos := max st.pos st.str.length }

/-- `stream.eat( char )`. -/
def eatCh (st : MStream) (c : Char) : Bool × MStream :=
  if st.peekCh = some c then (true, st.adv 1) else (false, st)

/-- `stream.eat( characterClass )`. -/
def eatP (st : MStream) (p : Char → Bool) : Bool × MStream :=
  match st.peekCh with
  | some c => if p c then (true, st.adv 1) else (false, st)
  | none => (false, st)

/-- `stream.eatWhile( characterClass )`: returns whether anything was eaten. -/
def eatWhileP (st : MStream) (p : Char → Bool) : Bool × MStream :=
  let n := countWhile p st.rest
  (0 < n, st.adv n)

/-- `stream.eatSpace()`. -/
def eatSpace (st : MStream) : Bool × MStream := st.eatWhileP jsSpace

/-- `stream.match( literalString, consume )`. -/
def matchS (st : MStream) (lit : List Char) (consume : Bool) : Bool × MStream :=
  if lit.isPrefixOf st.rest then (true, if consume then st.adv lit.length else st)
  else (false, st)

/-- `stream.match( anchoredRegex, consume )` where the regex is embedded as a
function from the remaining text to an optional match length. -/
def matchRe (st : MStream) (re : List Char → Option Nat) (consume : Bool) :
    Option Nat × MStream :=
  match re st.rest with
  | some n => (some n, if consume then st.adv n else st)
  | none => (none, st)

/-- `stream.backUp( n )`. -/
def backUp (st : MStream) (n : Nat) : MStream := { st with pos := st.pos - n }

/-- `stream.skipTo( str )`: move to the start of the next occurrence. -/
def skipToStr (st : MStream) (lit : List Char) : Bool × MStream :=
  match findSub st.rest lit with
  | some i => (true, st.adv i)
  | none => (false, st)

/-- `stream.skipToEnd()`. -/
def skipToEnd (st : MStream) : MStream := { st with pos := st.str.length }

end MStream

/-! ## Token tag identifiers

The values of `modeConfig.tags` (src config.ts).  The source maps most token
identifiers to standard lezer highlighting tag names and the custom ones to
`mw-...` names; styles emitted by the tokenizer are space-separated lists of
these strings.  The source's tags record has no `htmlEntity` key, so
`modeConfig.tags.htmlEntity` evaluates to JavaScript `undefined`, which
stringifies to "undefined" when appended into a style; `tagHtmlEntity` mirrors
that observable value. -/

def tagApostrophesBold : String := "strong"
def tagApostrophesItalic : String := "emphasis"
def tagComment : String := "comment"
def tagDoubleUnderscore : String := "controlKeyword"
def tagExtLink : String := "url"
def tagExtLinkBracket : String := "modifier"
def tagExtLinkProtocol : String := "namespace"
def tagExtLinkText : String := "labelName"
def tagHr : String := "contentSeparator"
def tagHtmlTagAttribute : String := "attributeName"
def tagHtmlTagBracket : String := "angleBracket"
def tagHtmlTagName : String := "tagName"
def tagExtTagAttribute : String := "attributeName"
def tagExtTagBracket : String := "angleBracket"
def tagExtTagName : String := "tagName"
def tagIndenting : String := "operatorKeyword"
def tagLinkBracket : String := "squareBracket"
def tagLinkDelimiter : String := "operator"
def tagLinkText : String := "string"
def tagLinkToSection : String := "className"
def tagList : String := "list"
def tagParserFunction : String := "unit"
def tagParserFunctionBracket : String := "paren"
def tagParserFunctionDelimiter : String := "punctuation"
def tagParserFunctionName : String := "keyword"
def tagSectionHeader : String := "heading"
def tagSignature : String := "quote"
def tagTableBracket : String := "null"
def tagTableDefinition : String := "definitionOperator"
def tagTableDelimiter : String := "typeOperator"
def tagTemplate : String := "attributeValue"
def tagTemplateArgumentName : String := "definitionKeyword"
def tagTemplateBracket : String := "bracket"
def tagTemplateDelimiter : String := "separator"
def tagTemplateName : String := "moduleKeyword"
def tagTemplateVariable : String := "atom"
def tagTemplateVariableBracket : String := "brace"
def tagTemplateVariableName : String := "variableName"
def tagSection : String := "mw-section"
def tagError : String := "mw-error"
def tagExtTag : String := "mw-exttag"
def tagFreeExtLink : String := "mw-free-extlink"
def tagFreeExtLinkProtocol : String := "mw-free-extlink-protocol"
def tagLink : String := "mw-link"
def tagLinkPageName : String := "mw-link-pagename"
def tagPageName : String := "mw-pagename"
def tagSkipFormatting : String := "mw-skipformatting"
def tagStrong : String := "mw-strong"
def tagEm : String := "mw-em"
def tagTableCaption : String := "mw-table-caption"
def tagTemplateVariableDelimiter : String := "mw-templatevariable-delimiter"
def tagPre : String := "mw-tag-pre"
def tagNowiki : String := "mw-tag-nowiki"
def tagHtmlEntity : String := "undefined"

/-- `modeConfig.tags[ "sectionHeader" + n ]` for `n` in 1..6. -/
def tagSectionHeaderN (n : Nat) : String := "heading" ++ toString n

/-- `modeConfig.permittedHtmlTags` (the key set). -/
def permittedHtmlTags : List String :=
  ["b", "bdi", "del", "i", "ins", "u", "font", "big", "small", "sub", "sup",
   "h1", "h2", "h3", "h4", "h5", "h6", "cite", "code", "em", "s", "strike",
   "strong", "tt", "var", "div", "center", "blockquote", "q", "ol", "ul",
   "dl", "table", "caption", "pre", "ruby", "rb", "rp", "rt", "rtc", "p",
   "span", "abbr", "dfn", "kbd", "samp", "data", "time", "mark", "br", "wbr",
   "hr", "li", "dt", "dd", "td", "th", "tr", "noinclude", "includeonly",
   "onlyinclude"]

/-- `modeConfig.implicitlyClosedHtmlTags` (the key set). -/
def implicitlyClosedHtmlTags : List String := ["br", "hr", "wbr"]

/-! ## Tokenizer state

`Tk` defunctionalizes the `Tokenizer` function values stored in
`state.tokenize` and `state.stack`; each constructor is one of the closure
factories (or bound methods) of the source class and carries the data that
closure captured.  `eatLinkText` captures the *mutable* variables `linkIsBold`
and `linkIsItalic`; those live in a heap of cells (`World.linkCells`) and the
constructor carries the cell index, so that, as in the source, a state and its
copy alias the same closure variables. -/

inductive ExtM where
  | pre
  | nowiki
deriving DecidableEq, Repr

inductive Tk where
  | eatWikiText (style : String)
  | eatBlock (style : String) (terminator : List Char) (consumeLast : Bool)
  | eatEnd (style : String)
  | eatChar (c : Char) (style : String)
  | eatSectionHeader (count : Nat)
  | inVariable
  | inVariableDefault
  | inParserFunctionName
  | inParserFunctionArguments
  | eatTemplatePageName (haveAte : Bool)
  | eatTemplateArgument (expectArgName : Bool)
  | eatExternalLinkProtocol (chars : Nat)
  | inExternalLink
  | inExternalLinkText
  | inLink
  | inLinkToSection
  | eatLinkText (cell : Nat)
  | eatTagName (chars : Nat) (isCloseTag : Bool) (isHtmlTag : Bool)
  | eatHtmlTagAttribute (name : String)
  | eatExtTagAttribute (name : String)
  | eatExtTagArea (name : String)
  | eatExtCloseTag (name : String)
  | eatExtTokens (origString : Option (List Char))
  | eatStartTable
  | inTableDefinition
  | inTableCaption
  | inTable
  | eatTableRow (isStart : Bool) (isHead : Bool)
  | eatFreeExternalLinkProtocol
  | eatFreeExternalLink
deriving DecidableEq, Repr

/-- The `State` interface of the source: the current continuation, the stack of
suspended continuations, the open-HTML-tag stack, the active extension-tag
bridge fields, and the three nesting counters (JavaScript numbers, hence
`Int`). -/
structure MwState where
  tokenize : Tk
  stack : List Tk
  inHtmlTag : List String
  extName : Option String
  extMode : Option ExtM
  extState : Bool
  nTemplate : Int
  nLink : Int
  nExt : Int
deriving DecidableEq, Repr

/-- A produced token as buffered by `mediawiki.token` (`pos`, `style`, and a
state snapshot). -/
structure MwTok where
  pos : Nat
  style : String
  state : MwState
deriving DecidableEq, Repr

/-- The per-instance mutable fields of `CodeMirrorModeMediaWiki` (shared by
*all* states tokenized through one parser instance), plus the heap of
`eatLinkText` closure cells `(linkIsBold, linkIsItalic)`. -/
structure World where
  isBold : Bool
  wasBold : Bool
  isItalic : Bool
  wasItalic : Bool
  firstSingleLetterWord : Option Nat
  firstMultiLetterWord : Option Nat
  firstSpace : Option Nat
  oldStyle : Option String
  oldTokens : List MwTok
  linkCells : List (Bool × Bool)
deriving DecidableEq, Repr

/-- The constructor's field initialization. -/
def freshWorld : World :=
  { isBold := false, wasBold := false, isItalic := false, wasItalic := false
    firstSingleLetterWord := none, firstMultiLetterWord := none
    firstSpace := none, oldStyle := none, oldTokens := [], linkCells := [] }

/-- `startState` of the `mediawiki` stream parser. -/
def startState : MwState :=
  { tokenize := Tk.eatWikiText "", stack := [], inHtmlTag := []
    extName := none, extMode := none, extState := false
    nTemplate := 0, nLink := 0, nExt := 0 }

/-- The module-level `copyState`: scalars are shared and array fields are
copied element-wise.  On the immutable Lean value this is the identity; the
parts of the source state that *are* shared by mutation (the closure variables
of `eatLinkText`) are represented as cell indices into `World.linkCells`, which
a copy shares with the original. -/
def copyState (s : MwState) : MwState := s

/-- The configuration consumed by the tokenizer (`MwConfig` plus the pieces of
`modeConfig` it selects).  `urlProtocols` is embedded as a prefix-match
function returning the match length.  `tagModes` is restricted to the
sub-modes defined in this file (`mw-tag-pre` and `mw-tag-nowiki`). -/
structure Cfg where
  protoMatch : List Char → Option Nat
  tags : List String
  tagModes : List (String × ExtM)
  functionSynonyms0 : List String
  functionSynonyms1 : List String
  doubleUnderscore0 : List String
  doubleUnderscore1 : List String

/-- Well-formedness of a configuration: a successful URL-protocol match
consumes at least one character. -/
def WfCfg (cfg : Cfg) : Prop :=
  ∀ l n, cfg.protoMatch l = some n → 1 ≤ n

/-! ## Style composition -/

/-- Which counter `makeLocalStyle` should decrement after composing. -/
inductive EndGround where
  | nTemplate
  | nLink
  | nExt
deriving DecidableEq, Repr

/-- The ground prefix computed by `makeLocalStyle` from the nesting counters.
The `switch` statements bucket each of `nTemplate` and `nExt` into
0 / 1 / 2 / default, and `nLink` into 0 / positive. -/
def groundOf (s : MwState) : String :=
  (if s.nTemplate = 0 then ""
   else if s.nTemplate = 1 then "-template"
   else if s.nTemplate = 2 then "-template2"
   else "-template3") ++
  (if s.nExt = 0 then ""
   else if s.nExt = 1 then "-ext"
   else if s.nExt = 2 then "-ext2"
   else "-ext3") ++
  (if 0 < s.nLink then "-link" else "")

/-- Apply the optional end-of-construct counter decrement. -/
def applyEndGround (s : MwState) : Option EndGround → MwState
  | none => s
  | some EndGround.nTemplate => { s with nTemplate := s.nTemplate - 1 }
  | some EndGround.nLink => { s with nLink := s.nLink - 1 }
  | some EndGround.nExt => { s with nExt := s.nExt - 1 }

/-- JavaScript `String.prototype.trim`: strip whitespace from both ends. -/
def strTrim (s : String) : String :=
  String.mk
    (((s.data.dropWhile Char.isWhitespace).reverse.dropWhile
        Char.isWhitespace).reverse)

/-- `makeLocalStyle( style, state, endGround )`. -/
def makeLocalStyle (style : String) (s : MwState) (endG : Option EndGround) :
    String × MwState :=
  let ground := groundOf s
  let style' := if ground ≠ "" then "mw" ++ ground ++ "-ground " ++ style else style
  (strTrim style', applyEndGround s endG)

/-- `makeStyle( style, state, endGround )`: appends the bold and italic
decorations before delegating to `makeLocalStyle`. -/
def makeStyle (w : World) (style : String) (s : MwState) (endG : Option EndGround) :
    String × MwState :=
  let style1 := if w.isBold then style ++ " " ++ tagStrong else style
  let style2 := if w.isItalic then style1 ++ " " ++ tagEm else style1
  makeLocalStyle style2 s endG

end MwMode

namespace MwMode

/-! ## Regex matchers

Each definition embeds one of the anchored JavaScript regexes of the source as
a function from the remaining line text to an optional match length. -/

/-- A `/^[...]+/` one-or-more character-class match. -/
def plusLen (p : Char → Bool) (l : List Char) : Option Nat :=
  let n := countWhile p l
  if n = 0 then none else some n

/-- `/[a-f\d]/i`. -/
def hexDigit (c : Char) : Bool :=
  c.isDigit || ('a' ≤ c && c ≤ 'f') || ('A' ≤ c && c ≤ 'F')

/-- `/[\w.\-:]/` (HTML entity name characters). -/
def entChar (c : Char) : Bool :=
  jsWord c || c == '.' || c == '-' || c == ':'

/-- `/^[^&<[{~]+/` (section header text). -/
def reSectionText : List Char → Option Nat :=
  plusLen fun c => !(c == '&' || c == '<' || c == '[' || c == '{' || c == '~')

/-- The negative lookahead body of `/^<!--(?!.*?-->.*?=)/`: after the `<!--`
there is an occurrence of `-->` followed somewhere by `=`. -/
def commentThenEq (l : List Char) : Bool :=
  match findSub (l.drop 4) ['-', '-', '>'] with
  | some i => ((l.drop 4).drop (i + 3)).contains '='
  | none => false

/-- `/^<!--(?!.*?-->.*?=)/`, tested with `consume = false`. -/
def reTrailingComment (l : List Char) : Bool :=
  ['<', '!', '-', '-'].isPrefixOf l && !commentThenEq l

/-- `/^[^{}|]+/` (template variable name). -/
def reVarName : List Char → Option Nat :=
  plusLen fun c => !(c == '{' || c == '}' || c == '|')

/-- `/^[^{}[<&~]+/` (template variable default). -/
def reVarDefault : List Char → Option Nat :=
  plusLen fun c => !(c == '{' || c == '}' || c == '[' || c == '<' || c == '&' || c == '~')

/-- `/^[^:}{~]+/` (parser function name). -/
def rePfName : List Char → Option Nat :=
  plusLen fun c => !(c == ':' || c == '}' || c == '{' || c == '~')

/-- `/^[^|}{[<&~]+/` (parser function arguments). -/
def rePfArgs : List Char → Option Nat :=
  plusLen fun c =>
    !(c == '|' || c == '}' || c == '{' || c == '[' || c == '<' || c == '&' || c == '~')

/-- `/^\s*\|\s*/`. -/
def reWsPipeWs (l : List Char) : Option Nat :=
  let a := countWhile jsSpace l
  match l.drop a with
  | '|' :: r => some (a + 1 + countWhile jsSpace r)
  | _ => none

/-- `/^\s*\}\}/`. -/
def reWsCloseTpl (l : List Char) : Option Nat :=
  let a := countWhile jsSpace l
  if ['}', '}'].isPrefixOf (l.drop a) then some (a + 2) else none

/-- `/^\s*<!--.*?-->/`. -/
def reWsComment (l : List Char) : Option Nat :=
  let a := countWhile jsSpace l
  if ['<', '!', '-', '-'].isPrefixOf (l.drop a) then
    match findSub ((l.drop a).drop 4) ['-', '-', '>'] with
    | some i => some (a + 4 + i + 3)
    | none => none
  else none

/-- `/^\s*[^\s|}<{&~]+/` (template page name text). -/
def reWsTplName (l : List Char) : Option Nat :=
  let a := countWhile jsSpace l
  let n := countWhile
    (fun c => !(jsSpace c || c == '|' || c == '}' || c == '<' || c == '{' ||
                c == '&' || c == '~')) (l.drop a)
  if n = 0 then none else some (a + n)

/-- `/[^=|}{[<&~]/` (template argument name characters). -/
def tplArgNameChar (c : Char) : Bool :=
  !(c == '=' || c == '|' || c == '}' || c == '{' || c == '[' || c == '<' ||
    c == '&' || c == '~')

/-- `/[^|}{[<&~]/` (template argument value characters). -/
def tplArgChar (c : Char) : Bool :=
  !(c == '|' || c == '}' || c == '{' || c == '[' || c == '<' || c == '&' || c == '~')

/-- `/^\s*\]/`. -/
def reWsCloseBracket (l : List Char) : Option Nat :=
  let a := countWhile jsSpace l
  if (l.drop a).head? = some ']' then some (a + 1) else none

/-- `/^[^\s\]{&~']+/` (external link target). -/
def reExtLinkChunk : List Char → Option Nat :=
  plusLen fun c => !(jsSpace c || c == ']' || c == '{' || c == '&' || c == '~' || c == '\'')

/-- `/^[^'\]{&~<]+/` (external link text, also link text). -/
def reExtLinkTextChunk : List Char → Option Nat :=
  plusLen fun c => !(c == '\'' || c == ']' || c == '{' || c == '&' || c == '~' || c == '<')

/-- `/^\s*#\s*/`. -/
def reWsHashWs (l : List Char) : Option Nat :=
  let a := countWhile jsSpace l
  match l.drop a with
  | '#' :: r => some (a + 1 + countWhile jsSpace r)
  | _ => none

/-- `/^\s*\]\]/`. -/
def reWsCloseLink (l : List Char) : Option Nat :=
  let a := countWhile jsSpace l
  if [']', ']'].isPrefixOf (l.drop a) then some (a + 2) else none

/-- `/^\s*[^\s#|\]&~{]+/` (link page name text). -/
def reWsLinkText (l : List Char) : Option Nat :=
  let a := countWhile jsSpace l
  let n := countWhile
    (fun c => !(jsSpace c || c == '#' || c == '|' || c == ']' || c == '&' ||
                c == '~' || c == '{')) (l.drop a)
  if n = 0 then none else some (a + n)

/-- `/^[^|\]&~{}]+/` (link-to-section text). -/
def reLinkToSection : List Char → Option Nat :=
  plusLen fun c =>
    !(c == '|' || c == ']' || c == '&' || c == '~' || c == '{' || c == '}')

/-- `/^[^'|{[<&~!]+/` (table row text). -/
def reTableText : List Char → Option Nat :=
  plusLen fun c =>
    !(c == '\'' || c == '|' || c == '{' || c == '[' || c == '<' || c == '&' ||
      c == '~' || c == '!')

/-- `/^\s*[|!]/`, used as a lookahead. -/
def reWsTableMark (l : List Char) : Option Nat :=
  let a := countWhile jsSpace l
  match (l.drop a).head? with
  | some '|' => some (a + 1)
  | some '!' => some (a + 1)
  | _ => none

/-- One alternative of the attribute regex
`(?:"[^<">]*"|'[^<'>]*'|[^>/<{&~])`; `html` selects the variant whose quoted
alternatives also exclude `<`.  Per JavaScript backtracking, an unterminated
quoted alternative falls back to the single-character alternative. -/
def attrChunk (html : Bool) (l : List Char) : Option Nat :=
  match l with
  | [] => none
  | c :: r =>
    let single : Option Nat :=
      if c == '>' || c == '/' || c == '<' || c == '{' || c == '&' || c == '~'
      then none else some 1
    if c == '"' then
      let k := countWhile (fun d => !(d == '"' || d == '>' || (html && d == '<'))) r
      if (r.drop k).head? = some '"' then some (k + 2) else single
    else if c == '\'' then
      let k := countWhile (fun d => !(d == '\'' || d == '>' || (html && d == '<'))) r
      if (r.drop k).head? = some '\'' then some (k + 2) else single
    else single

/-- Greedy repetition of `attrChunk` with fuel (each chunk consumes at least
one character). -/
def attrMany (html : Bool) : Nat → List Char → Nat
  | 0, _ => 0
  | fuel + 1, l =>
    match attrChunk html l with
    | some n => n + attrMany html fuel (l.drop n)
    | none => 0

/-- `/^(?:"[^<">]*"|'[^<'>]*'|[^>\/<{&~])+/` (HTML tag attributes) and its
extension-tag variant. -/
def reAttr (html : Bool) (l : List Char) : Option Nat :=
  let n := attrMany html l.length l
  if n = 0 then none else some n

/-- The tag name class `/^[^>\/\s.*,[\]{}$^+?|\\'`~<=!@#%&()-]+/`. -/
def tagNameChar (c : Char) : Bool :=
  !(c == '>' || c == '/' || jsSpace c || c == '.' || c == '*' || c == ',' ||
    c == '[' || c == ']' || c == '{' || c == '}' || c == '$' || c == '^' ||
    c == '+' || c == '?' || c == '|' || c == '\\' || c == '\'' || c == '`' ||
    c == '~' || c == '<' || c == '=' || c == '!' || c == '@' || c == '#' ||
    c == '%' || c == '&' || c == '(' || c == ')' || c == '-')

/-- The tag name match. -/
def reTagName : List Char → Option Nat := plusLen tagNameChar

/-- `/^-{3,}/` (horizontal rule, after the first `-`). -/
def reHr (l : List Char) : Option Nat :=
  let n := countWhile (· == '-') l
  if 3 ≤ n then some n else none

/-- `/^[*#]*:*/` (always matches). -/
def reListStars (l : List Char) : Option Nat :=
  let a := countWhile (fun c => c == '*' || c == '#') l
  some (a + countWhile (· == ':') (l.drop a))

/-- `/^:*[*#]*/` (always matches). -/
def reColonsStars (l : List Char) : Option Nat :=
  let a := countWhile (· == ':') l
  some (a + countWhile (fun c => c == '*' || c == '#') (l.drop a))

/-- `/^:*\{\|/` as a lookahead. -/
def lookColonTable (l : List Char) : Bool :=
  ['{', '|'].isPrefixOf (l.drop (countWhile (· == ':') l))

/-- `/^\s*:*\{\|/` as a lookahead. -/
def lookSpaceColonTable (l : List Char) : Bool :=
  let a := countWhile jsSpace l
  lookColonTable (l.drop a)

/-- `/^:+/`. -/
def reColonPlus : List Char → Option Nat := plusLen (· == ':')

/-- `/^(?:\||\{\{!\}\})/` (table pipe at line start). -/
def reTablePipe (l : List Char) : Option Nat :=
  if l.head? = some '|' then some 1
  else if ['{', '{', '!', '}', '}'].isPrefixOf l then some 5
  else none

/-- `/^\{\{(?!\{|[^{}]*\}\}(?!\}))/` (template variable opening, applied after
the first `{` was consumed).  The lookahead rejects a third consecutive `{`
and a brace-free run followed by `}}` not followed by `}`. -/
def reVarOpen (l : List Char) : Option Nat :=
  if ['{', '{'].isPrefixOf l then
    let r := l.drop 2
    let bad1 := r.head? = some '{'
    let k := countWhile (fun c => !(c == '{' || c == '}')) r
    let bad2 := ['}', '}'].isPrefixOf (r.drop k) && (r.drop k).get? 2 ≠ some '}'
    if bad1 || bad2 then none else some 2
  else none

/-- `/^\{(?!\{(?!\{))\s*/` (template or parser function opening, applied after
the first `{` was consumed). -/
def reTplOpen (l : List Char) : Option Nat :=
  match l with
  | '{' :: r =>
    if r.head? = some '{' && r.get? 1 ≠ some '{' then none
    else some (1 + countWhile jsSpace r)
  | _ => none

/-- The parser function head regex
`/^([^\s}[\]<{'|&:]+)(:|\s*)(\}\}?)?(.)?/`: returns the group-1 length, whether
group 2 matched the `:` alternative, group 3 (`}}` or `}` as a length) and
group 4. -/
def rePfHead (l : List Char) : Option (Nat × Bool × Option Nat × Option Char) :=
  let n1 := countWhile
    (fun c => !(jsSpace c || c == '}' || c == '[' || c == ']' || c == '<' ||
                c == '{' || c == '\'' || c == '|' || c == '&' || c == ':')) l
  if n1 = 0 then none
  else
    let l1 := l.drop n1
    let (g2colon, g2len) :=
      match l1.head? with
      | some ':' => (true, 1)
      | _ => (false, countWhile jsSpace l1)
    let l2 := l1.drop g2len
    let (g3, g3len) : Option Nat × Nat :=
      if ['}', '}'].isPrefixOf l2 then (some 2, 2)
      else if l2.head? = some '}' then (some 1, 1)
      else (none, 0)
    some (n1, g2colon, g3, (l2.drop g3len).head?)

/-- `/^~{2,4}/` (signature, applied after the first `~` was consumed): two to
four further tildes, greedy. -/
def reSig (l : List Char) : Option Nat :=
  let n := countWhile (· == '~') l
  if 2 ≤ n then some (min n 4) else none

/-- The double-underscore magic word name
`/^([^\s>}[\]<{'|&:~]+?)__/` (non-greedy). -/
def reDuName : List Char → Option Nat
  | [] => none
  | c :: rest =>
    if jsSpace c || c == '>' || c == '}' || c == '[' || c == ']' || c == '<' ||
       c == '{' || c == '\'' || c == '|' || c == '&' || c == ':' || c == '~'
    then none
    else if ['_', '_'].isPrefixOf rest then some 3
    else (reDuName rest).map (· + 1)

/-- `/^'*(?='{5})/` (irrelevant apostrophes, applied after the first `'` was
consumed): matches, consuming all but five of the remaining run, as soon as at
least five apostrophes remain. -/
def aposSkip (l : List Char) : Option Nat :=
  let run := countWhile (· == '\'') l
  if 5 ≤ run then some (run - 5) else none

/-- `/^'''(?!')/` as a lookahead (applied after the first `'` was consumed). -/
def lookBoldQuote (l : List Char) : Bool :=
  ['\'', '\'', '\''].isPrefixOf l && l.get? 3 ≠ some '\''

/-- `/^[^\s_>}[\]<{'|&:~=]+/` (the fall-through text consumer). -/
def reBottom : List Char → Option Nat :=
  plusLen fun c =>
    !(jsSpace c || c == '_' || c == '>' || c == '}' || c == '[' || c == ']' ||
      c == '<' || c == '{' || c == '\'' || c == '|' || c == '&' || c == ':' ||
      c == '~' || c == '=')

/-- `/^[^\s{[\]<>~).,']*/` (free external link chunk; star, so it always
matches). -/
def reFreeChunk (l : List Char) : Nat :=
  countWhile
    (fun c => !(jsSpace c || c == '{' || c == '[' || c == ']' || c == '<' ||
                c == '>' || c == '~' || c == ')' || c == '.' || c == ',' ||
                c == '\'')) l

/-- `/^[).,]+(?=[^\s{[\]<>~).,])/` (trailing punctuation kept before further
link characters). -/
def rePunct (l : List Char) : Option Nat :=
  let k := countWhile (fun c => c == ')' || c == '.' || c == ',') l
  if k = 0 then none
  else
    match (l.drop k).head? with
    | some c =>
      if jsSpace c || c == '{' || c == '[' || c == ']' || c == '<' || c == '>' ||
         c == '~' || c == ')' || c == '.' || c == ',' || c == '\''
      then none else some k
    | none => none

/-- The close-run group `(=\1\s*)` of the heading regex at a given content
split: one `=`, `k` further `=`, then greedy `\s*`. -/
def headingClose (k : Nat) (l : List Char) : Option Nat :=
  if (List.replicate (k + 1) '=').isPrefixOf l then
    some (k + 1 + countWhile jsSpace (l.drop (k + 1)))
  else none

/-- The trailing comment group `(<!--(?!.*-->.*\S).*)` of the heading regex,
which must extend to the end of the line: `<!--` not followed by `-->` with a
non-space character after it. -/
def headingComment (l : List Char) : Bool :=
  ['<', '!', '-', '-'].isPrefixOf l &&
  !(match findSub (l.drop 4) ['-', '-', '>'] with
    | some i => ((l.drop 4).drop (i + 3)).any (fun c => !jsSpace c)
    | none => false)

/-- The non-greedy content search `(.+?(=\1\s*)(comment)?)$` of the heading
regex for a fixed `k`: the smallest content offset `i ≥ 1` at which the close
run matches and the remainder is empty or a trailing comment.  Returns
`(group-2 length, group-3 length)`. -/
def headingRest (k : Nat) (l : List Char) : Option (Nat × Nat) :=
  go 1 l.length
where
  go (i fuel : Nat) : Option (Nat × Nat) :=
    match fuel with
    | 0 => none
    | fuel + 1 =>
      if l.length < i then none
      else
        match headingClose k (l.drop i) with
        | some c =>
          let r := l.drop (i + c)
          if r.isEmpty then some (i + c, c)
          else if headingComment r then some (i + c + r.length, c)
          else go (i + 1) fuel
        | none => go (i + 1) fuel

/-- The heading regex `/^(={0,5})(.+?(=\1\s*)(<!--(?!.*-->.*\S).*)?)$/`,
applied after the first `=` was consumed.  Group 1 is greedy with
backtracking, so `k` is tried from the largest value down.  Returns
`(group-1 length, group-2 length, group-3 length)`. -/
def headingMatch (l : List Char) : Option (Nat × Nat × Nat) :=
  go (min 5 (countWhile (· == '=') l) + 1)
where
  go : Nat → Option (Nat × Nat × Nat)
    | 0 => none
    | k + 1 =>
      match headingRest k (l.drop k) with
      | some (clen, closeLen) => some (k, clen, closeLen)
      | none => go k

/-- The close-tag search of `eatExtTagArea`: does `l` start with `</name\s*>`
(case-insensitively)? -/
def closeTagAt (name : List Char) (l : List Char) : Bool :=
  match l with
  | '<' :: '/' :: r =>
    if isPrefixOfCI name r then
      let r2 := r.drop name.length
      (r2.drop (countWhile jsSpace r2)).head? = some '>'
    else false
  | _ => false

/-- `new RegExp( "</" + name + "\\s*>", "i" ).exec( rest )?.index`. -/
def findCloseTag (name : List Char) : List Char → Option Nat
  | [] => if closeTagAt name [] then some 0 else none
  | c :: t =>
    if closeTagAt name (c :: t) then some 0
    else (findCloseTag name t).map (· + 1)

end MwMode

namespace MwMode

/-! ## State-manipulation helpers -/

/-- `state.tokenize = state.stack.pop()!` (fails on an empty stack, as the
source would). -/
def popTk (s : MwState) : Option MwState :=
  match s.stack with
  | [] => none
  | tk :: rest => some { s with tokenize := tk, stack := rest }

/-- `state.stack.push( state.tokenize ); state.tokenize = tk`. -/
def chainTo (s : MwState) (tk : Tk) : MwState :=
  { s with stack := s.tokenize :: s.stack, tokenize := tk }

/-- `state.tokenize = tk`. -/
def setTk (s : MwState) (tk : Tk) : MwState := { s with tokenize := tk }

/-- One tokenizer step: the produced style, the updated instance fields, the
updated state and the advanced stream. -/
abbrev StepRes := String × World × MwState × MStream

/-- Allocate a fresh `eatLinkText` closure (its captured `linkIsBold` and
`linkIsItalic` start out `undefined`, i.e. falsy). -/
def allocCell (w : World) : Nat × World :=
  (w.linkCells.length, { w with linkCells := w.linkCells ++ [(false, false)] })

/-- Read an `eatLinkText` closure cell. -/
def getCell (w : World) (i : Nat) : Bool × Bool :=
  w.linkCells.getD i (false, false)

/-- Write an `eatLinkText` closure cell. -/
def setCell (w : World) (i : Nat) (v : Bool × Bool) : World :=
  { w with linkCells := w.linkCells.set i v }

/-! ## Tokenizer bodies

One definition per method of `CodeMirrorModeMediaWiki`, mirroring the source
branch for branch.  The comments name the deviating JavaScript constructs
(short-circuit evaluation, raw returns that skip `makeLocalStyle`, and so
on). -/

/-- `eatHtmlEntity( stream, style )`.  `ok = stream.eatWhile( ... ) &&
stream.eat( ";" )` short-circuits: the `;` is only tried after a nonempty
run. -/
def eatHtmlEntity (st : MStream) (style : String) : String × MStream :=
  if st.peekCh = some '#' then
    let st1 := st.adv 1
    if st1.peekCh = some 'x' then
      let st2 := st1.adv 1
      let n := countWhile hexDigit st2.rest
      let st3 := st2.adv n
      if 0 < n then
        if st3.peekCh = some ';' then (tagHtmlEntity, st3.adv 1) else (style, st3)
      else (style, st3)
    else
      let n := countWhile Char.isDigit st1.rest
      let st3 := st1.adv n
      if 0 < n then
        if st3.peekCh = some ';' then (tagHtmlEntity, st3.adv 1) else (style, st3)
      else (style, st3)
  else
    let n := countWhile entChar st.rest
    let st3 := st.adv n
    if 0 < n then
      if st3.peekCh = some ';' then (tagHtmlEntity, st3.adv 1) else (style, st3)
    else (style, st3)

/-- `prepareItalicForCorrection( stream )`: records a rollback candidate and
snapshots the pre-toggle bold and italic flags. -/
def prepareItalicForCorrection (w : World) (st : MStream) : World :=
  let endP := st.pos
  let str := st.str.take (endP - 3)
  let x1 := str.getLast?
  let x2 := str.dropLast.getLast?
  if x1 = some ' ' then
    if w.firstMultiLetterWord.isSome || w.firstSpace.isSome then w
    else
      { w with firstSpace := some endP, wasBold := w.isBold, wasItalic := w.isItalic }
  else if x2 = some ' ' then
    { w with firstSingleLetterWord := some endP
             wasBold := w.isBold, wasItalic := w.isItalic }
  else if w.firstMultiLetterWord.isSome then w
  else
    { w with firstMultiLetterWord := some endP
             wasBold := w.isBold, wasItalic := w.isItalic }

/-- `eatBlock( style, terminator, consumeLast )`. -/
def eatBlock (style : String) (terminator : List Char) (consumeLast : Bool)
    (w : World) (s : MwState) (st : MStream) : Option StepRes :=
  match findSub st.rest terminator with
  | some i =>
    let st1 := st.adv i
    let st2 := if consumeLast then st1.adv terminator.length else st1
    match popTk s with
    | none => none
    | some s1 => some ((makeLocalStyle style s1 none).1, w, s1, st2)
  | none =>
    some ((makeLocalStyle style s none).1, w, s, st.skipToEnd)

/-- `eatEnd( style )`. -/
def eatEnd (style : String) (w : World) (s : MwState) (st : MStream) :
    Option StepRes :=
  match popTk s with
  | none => none
  | some s1 => some ((makeLocalStyle style s1 none).1, w, s1, st.skipToEnd)

/-- `eatChar( char, style )`. -/
def eatChar (c : Char) (style : String) (w : World) (s : MwState) (st : MStream) :
    Option StepRes :=
  match popTk s with
  | none => none
  | some s1 =>
    if st.peekCh = some c then
      some ((makeLocalStyle style s1 none).1, w, s1, st.adv 1)
    else
      some ((makeLocalStyle tagError s1 none).1, w, s1, st)

/-- `eatNowiki( style )`, the token function of the `mw-tag-pre` and
`mw-tag-nowiki` sub-modes. -/
def eatNowiki (style : String) (st : MStream) : String × MStream :=
  let n := countWhile (· != '&') st.rest
  if 0 < n then (style, st.adv n)
  else
    let st1 := if st.eol then st else st.adv 1
    eatHtmlEntity st1 style

/-- The style of the sub-mode selected for an extension tag. -/
def extModeStyle : ExtM → String
  | ExtM.pre => tagPre
  | ExtM.nowiki => tagNowiki

/-- `modeConfig.tags[ state.extName ]` (the names registered by the `tagModes`
of this file are `pre` and `nowiki`; any other name yields JavaScript
`undefined`). -/
def tagForExtName : Option String → String
  | some "pre" => tagPre
  | some "nowiki" => tagNowiki
  | _ => "undefined"

/-- The fall-through consumer `stream.match( bottomRegex )` followed by
`makeStyle( style, state )` that ends `eatWikiText`. -/
def wtBottom (style : String) (w : World) (s : MwState) (st : MStream) : StepRes :=
  ((makeStyle w style s none).1, w, s, st.adv ((reBottom st.rest).getD 0))

/-- The `case '&'` of the main switch of `eatWikiText`. -/
def wtAmp (style : String) (w : World) (s : MwState) (st : MStream) : StepRes :=
  ((makeStyle w (eatHtmlEntity st style).1 s none).1, w, s, (eatHtmlEntity st style).2)

/-- The `case "'"` of the main switch of `eatWikiText`. -/
def wtApos (style : String) (w : World) (s : MwState) (st : MStream) : StepRes :=
  -- skip the irrelevant apostrophes ( >5 or =4 )
  match aposSkip st.rest with
  | some n => wtBottom style w s (st.adv n)
  | none =>
    if lookBoldQuote st.rest then wtBottom style w s st
    else if ['\'', '\''].isPrefixOf st.rest then
      let st1 := st.adv 2
      let w1 :=
        if !(w.firstSingleLetterWord.isSome ||
             ['\'', '\''].isPrefixOf st1.rest) then
          prepareItalicForCorrection w st1
        else w
      ((makeLocalStyle tagApostrophesBold s none).1,
        { w1 with isBold := !w1.isBold }, s, st1)
    else if st.peekCh = some '\'' then
      ((makeLocalStyle tagApostrophesItalic s none).1,
        { w with isItalic := !w.isItalic }, s, st.adv 1)
    else wtBottom style w s st

/-- The `case '['` of the main switch of `eatWikiText`. -/
def wtOpenBracket (cfg : Cfg) (style : String) (w : World) (s : MwState)
    (st : MStream) : StepRes :=
  if st.peekCh = some '[' then
    let st2 := (st.adv 1).adv (countWhile jsSpace (st.adv 1).rest)
    match st2.peekCh with
    | some c =>
      if !(c == ']' || c == '|' || c == '[') then
        ((makeLocalStyle tagLinkBracket
            (chainTo { s with nLink := s.nLink + 1 } Tk.inLink) none).1,
          w, chainTo { s with nLink := s.nLink + 1 } Tk.inLink, st2)
      else wtBottom style w s st2
    | none => wtBottom style w s st2
  else
    match cfg.protoMatch st.rest with
    | some n =>
      ((makeLocalStyle tagExtLinkBracket
          (chainTo { s with nLink := s.nLink + 1 } (Tk.eatExternalLinkProtocol n)) none).1,
        w, chainTo { s with nLink := s.nLink + 1 } (Tk.eatExternalLinkProtocol n),
        (st.adv n).backUp n)
    | none => wtBottom style w s st

/-- The `case '{'` of the main switch of `eatWikiText`. -/
def wtOpenBrace (cfg : Cfg) (style : String) (w : World) (s : MwState)
    (st : MStream) : StepRes :=
  match reVarOpen st.rest with
  | some n =>
    let st1 := st.adv n
    ((makeLocalStyle tagTemplateVariableBracket (chainTo s Tk.inVariable) none).1,
      w, chainTo s Tk.inVariable, st1.adv (countWhile jsSpace st1.rest))
  | none =>
    match reTplOpen st.rest with
    | some n =>
      let st1 := st.adv n
      if st1.peekCh = some '#' then
        ((makeLocalStyle tagParserFunctionBracket
            (chainTo { s with nExt := s.nExt + 1 } Tk.inParserFunctionName) none).1,
          w, chainTo { s with nExt := s.nExt + 1 } Tk.inParserFunctionName, st1)
      else
        let asTemplate : StepRes :=
          ((makeLocalStyle tagTemplateBracket
              (chainTo { s with nTemplate := s.nTemplate + 1 }
                (Tk.eatTemplatePageName false)) none).1,
            w, chainTo { s with nTemplate := s.nTemplate + 1 }
              (Tk.eatTemplatePageName false), st1)
        match rePfHead st1.rest with
        | some (n1, g2colon, g3, g4) =>
          if (g2colon || g4 = none || g3 = some 2) &&
             (cfg.functionSynonyms0.contains
                (String.mk ((st1.rest.take n1).map Char.toLower)) ||
              cfg.functionSynonyms1.contains (String.mk (st1.rest.take n1))) then
            ((makeLocalStyle tagParserFunctionBracket
                (chainTo { s with nExt := s.nExt + 1 } Tk.inParserFunctionName) none).1,
              w, chainTo { s with nExt := s.nExt + 1 } Tk.inParserFunctionName, st1)
          else asTemplate
        | none => asTemplate
    | none => wtBottom style w s st

/-- The `case '<'` of the main switch of `eatWikiText`. -/
def wtLt (cfg : Cfg) (style : String) (w : World) (s : MwState) (st : MStream) :
    Option StepRes :=
  let isCloseTag := st.peekCh = some '/'
  let st1 := if isCloseTag then st.adv 1 else st
  let tn? := reTagName st1.rest
  let st3 := st1.adv (tn?.getD 0)
  if ['!', '-', '-'].isPrefixOf st3.rest then
    -- chain( this.eatBlock( comment, "-->" ) )
    eatBlock tagComment ['-', '-', '>'] true w
      (chainTo s (Tk.eatBlock tagComment ['-', '-', '>'] true)) (st3.adv 3)
  else
    match tn? with
    | some n =>
      let tagname := String.mk ((st1.rest.take n).map Char.toLower)
      if cfg.tags.contains tagname then
        if isCloseTag then some (tagError, w, s, st3)
        else
          some ((makeLocalStyle tagExtTagBracket
              (chainTo s (Tk.eatTagName tagname.length isCloseTag false)) none).1,
            w, chainTo s (Tk.eatTagName tagname.length isCloseTag false),
            st3.backUp tagname.length)
      else if permittedHtmlTags.contains tagname then
        if isCloseTag then
          let s1 := { s with inHtmlTag := s.inHtmlTag.tail }
          if s.inHtmlTag.head? ≠ some tagname then
            -- Increment position so that the closing > gets highlighted red.
            some (tagError, w, s1, st3.adv 1)
          else if implicitlyClosedHtmlTags.contains tagname then
            some (tagError, w, s1, st3)
          else
            some ((makeLocalStyle tagHtmlTagBracket
                (chainTo s1 (Tk.eatTagName tagname.length true true)) none).1,
              w, chainTo s1 (Tk.eatTagName tagname.length true true),
              st3.backUp tagname.length)
        else
          some ((makeLocalStyle tagHtmlTagBracket
              (chainTo s (Tk.eatTagName tagname.length
                (implicitlyClosedHtmlTags.contains tagname) true)) none).1,
            w, chainTo s (Tk.eatTagName tagname.length
              (implicitlyClosedHtmlTags.contains tagname) true),
            st3.backUp tagname.length)
      else some (wtBottom style w s (st3.backUp tagname.length))
    | none => some (wtBottom style w s st3)

/-- The `case '~'` of the main switch of `eatWikiText`. -/
def wtTilde (style : String) (w : World) (s : MwState) (st : MStream) : StepRes :=
  match reSig st.rest with
  | some n => (tagSignature, w, s, st.adv n)
  | none => wtBottom style w s st

/-- The `case '_'` of the main switch of `eatWikiText`. -/
def wtUnderscore (cfg : Cfg) (style : String) (w : World) (s : MwState)
    (st : MStream) : StepRes :=
  let more := countWhile (· == '_') st.rest
  let tmp := 1 + more
  let st1 := st.adv more
  if 2 < tmp then
    ((makeStyle w style s none).1, w, s, if !st1.eol then st1.backUp 2 else st1)
  else if tmp = 2 then
    match reDuName st1.rest with
    | some len =>
      let st2 := st1.adv len
      if cfg.doubleUnderscore0.contains
           ("__" ++ String.mk ((st1.rest.take len).map Char.toLower)) ||
         cfg.doubleUnderscore1.contains ("__" ++ String.mk (st1.rest.take len)) then
        (tagDoubleUnderscore, w, s, st2)
      else
        ((makeStyle w style s none).1, w, s, if !st2.eol then st2.backUp 2 else st2)
    | none => wtBottom style w s st1
  else wtBottom style w s st1

/-- The `default` case of the main switch of `eatWikiText` for a whitespace
character. -/
def wtSpaceDefault (cfg : Cfg) (style : String) (w : World) (s : MwState)
    (st : MStream) : StepRes :=
  let st1 := st.adv (countWhile jsSpace st.rest)
  -- highlight free external links, bug T108448
  match cfg.protoMatch st1.rest with
  | some _ =>
    if ['/', '/'].isPrefixOf st1.rest then wtBottom style w s (st1.adv 2)
    else
      ((makeStyle w style (chainTo s Tk.eatFreeExternalLinkProtocol) none).1,
        w, chainTo s Tk.eatFreeExternalLinkProtocol, st1)
  | none => wtBottom style w s st1

/-- The main `switch ( ch )` of `eatWikiText`, with the character already
consumed; `och = none` models `ch === undefined` at end of line. -/
def wikiMain (cfg : Cfg) (style : String) (w : World) (s : MwState)
    (och : Option Char) (st : MStream) : Option StepRes :=
  match och with
  | none => some (wtBottom style w s st)
  | some ch =>
    if ch = '&' then some (wtAmp style w s st)
    else if ch = '\'' then some (wtApos style w s st)
    else if ch = '[' then some (wtOpenBracket cfg style w s st)
    else if ch = '{' then some (wtOpenBrace cfg style w s st)
    else if ch = '<' then wtLt cfg style w s st
    else if ch = '~' then some (wtTilde style w s st)
    else if ch = '_' then some (wtUnderscore cfg style w s st)
    else if jsSpace ch then some (wtSpaceDefault cfg style w s st)
    else some (wtBottom style w s st)

/-- The start-of-line `case '{'` of `eatWikiText` (also reached by
fall-through from `case ' '`); on failure control flows into the main
switch with the original character. -/
def wikiSolBrace (cfg : Cfg) (style : String) (w : World) (s : MwState)
    (ch : Char) (st : MStream) : Option StepRes :=
  match reTablePipe st.rest with
  | some n =>
    let st1 := st.adv n
    let st2 := st1.adv (countWhile jsSpace st1.rest)
    some (tagTableBracket, w, chainTo s Tk.inTableDefinition, st2)
  | none => wikiMain cfg style w s (some ch) st

/-- `eatWikiText( style )`. -/
def eatWikiText (cfg : Cfg) (style : String) (w : World) (s : MwState)
    (st : MStream) : Option StepRes :=
  if st.sol then
    -- highlight free external links, see T108448
    if !(['/', '/'].isPrefixOf st.rest) then
      match cfg.protoMatch st.rest with
      | some n =>
        some ((makeLocalStyle tagFreeExtLinkProtocol
            (chainTo s Tk.eatFreeExternalLink) none).1,
          w, chainTo s Tk.eatFreeExternalLink, st.adv n)
      | none => wikiSol cfg style w s st
    else wikiSol cfg style w s st
  else wikiMain cfg style w s (st.nextCh).1 (st.nextCh).2
where
  /-- The start-of-line `switch ( ch )`. -/
  wikiSol (cfg : Cfg) (style : String) (w : World) (s : MwState) (st : MStream) :
      Option StepRes :=
    let st1 := (st.nextCh).2
    match (st.nextCh).1 with
    | some '-' =>
      match reHr st1.rest with
      | some n => some (tagHr, w, s, st1.adv n)
      | none => wikiMain cfg style w s (some '-') st1
    | some '=' =>
      match headingMatch st1.rest with
      | some (k, clen, closeLen) =>
        some (tagSectionHeader ++ " " ++ tagSectionHeaderN (k + 1), w,
          chainTo s (Tk.eatSectionHeader closeLen), (st1.adv (k + clen)).backUp clen)
      | none => wikiMain cfg style w s (some '=') st1
    | some '*' =>
      some (tagList, w, s, st1.adv ((reListStars st1.rest).getD 0))
    | some '#' =>
      some (tagList, w, s, st1.adv ((reListStars st1.rest).getD 0))
    | some ':' =>
      -- Highlight indented tables :{|, bug T108454
      let s1 := if lookColonTable st1.rest then chainTo s Tk.eatStartTable else s
      some (tagIndenting, w, s1, st1.adv ((reColonsStars st1.rest).getD 0))
    | some ' ' =>
      -- Leading spaces is valid syntax for tables, bug T108454
      if lookSpaceColonTable st1.rest then
        let stA := st1.adv (countWhile jsSpace st1.rest)
        match reColonPlus stA.rest with
        | some n => some (tagIndenting, w, chainTo s Tk.eatStartTable, stA.adv n)
        | none =>
          let stB := if stA.peekCh = some '{' then stA.adv 1 else stA
          wikiSolBrace cfg style w s ' ' stB
      else some (tagSkipFormatting, w, s, st1)
    | some '{' => wikiSolBrace cfg style w s '{' st1
    | och => wikiMain cfg style w s och st1

/-- `eatSectionHeader( count )`. -/
def eatSectionHeader (cfg : Cfg) (count : Nat) (w : World) (s : MwState)
    (st : MStream) : Option StepRes :=
  match reSectionText st.rest with
  | some n =>
    let st1 := st.adv n
    if st1.eol then
      some (tagSection, w, setTk s (Tk.eatEnd tagSectionHeader), st1.backUp count)
    else if reTrailingComment st1.rest then
      -- T171074: handle trailing comments
      some (tagSection, w,
        setTk s (Tk.eatBlock tagSectionHeader ['<', '!', '-', '-'] false),
        st1.backUp count)
    else some (tagSection, w, s, st1)
  | none => eatWikiText cfg tagSection w s st

/-- `inVariable( stream, state )`. -/
def inVariable (cfg : Cfg) (w : World) (s : MwState) (st : MStream) :
    Option StepRes :=
  match reVarName st.rest with
  | some n =>
    some ((makeLocalStyle tagTemplateVariableName s none).1, w, s, st.adv n)
  | none =>
    if st.peekCh = some '|' then
      some ((makeLocalStyle tagTemplateVariableDelimiter
          (setTk s Tk.inVariableDefault) none).1,
        w, setTk s Tk.inVariableDefault, st.adv 1)
    else if ['}', '}', '}'].isPrefixOf st.rest then
      match popTk s with
      | none => none
      | some s1 =>
        some ((makeLocalStyle tagTemplateVariableBracket s1 none).1, w, s1, st.adv 3)
    else if ['{', '{', '{'].isPrefixOf st.rest then
      let s1 := { s with stack := s.tokenize :: s.stack }
      some ((makeLocalStyle tagTemplateVariableBracket s1 none).1, w, s1, st.adv 3)
    else
      let st1 := if st.eol then st else st.adv 1
      some ((makeLocalStyle tagTemplateVariableName s none).1, w, s, st1)

/-- `inVariableDefault( stream, state )`. -/
def inVariableDefault (cfg : Cfg) (w : World) (s : MwState) (st : MStream) :
    Option StepRes :=
  match reVarDefault st.rest with
  | some n =>
    some ((makeLocalStyle tagTemplateVariable s none).1, w, s, st.adv n)
  | none =>
    if ['}', '}', '}'].isPrefixOf st.rest then
      match popTk s with
      | none => none
      | some s1 =>
        some ((makeLocalStyle tagTemplateVariableBracket s1 none).1, w, s1, st.adv 3)
    else eatWikiText cfg tagTemplateVariable w s st

/-- `inParserFunctionName( stream, state )`. -/
def inParserFunctionName (cfg : Cfg) (w : World) (s : MwState) (st : MStream) :
    Option StepRes :=
  match rePfName st.rest with
  | some n =>
    some ((makeLocalStyle tagParserFunctionName s none).1, w, s, st.adv n)
  | none =>
    if st.peekCh = some ':' then
      some ((makeLocalStyle tagParserFunctionDelimiter
          (setTk s Tk.inParserFunctionArguments) none).1,
        w, setTk s Tk.inParserFunctionArguments, st.adv 1)
    else if ['}', '}'].isPrefixOf st.rest then
      match popTk s with
      | none => none
      | some s1 =>
        some ((makeLocalStyle tagParserFunctionBracket s1 (some EndGround.nExt)).1,
          w, applyEndGround s1 (some EndGround.nExt), st.adv 2)
    else eatWikiText cfg tagParserFunction w s st

/-- `inParserFunctionArguments( stream, state )`. -/
def inParserFunctionArguments (cfg : Cfg) (w : World) (s : MwState) (st : MStream) :
    Option StepRes :=
  match rePfArgs st.rest with
  | some n =>
    some ((makeLocalStyle tagParserFunction s none).1, w, s, st.adv n)
  | none =>
    if st.peekCh = some '|' then
      some ((makeLocalStyle tagParserFunctionDelimiter s none).1, w, s, st.adv 1)
    else if ['}', '}'].isPrefixOf st.rest then
      match popTk s with
      | none => none
      | some s1 =>
        some ((makeLocalStyle tagParserFunctionBracket s1 (some EndGround.nExt)).1,
          w, applyEndGround s1 (some EndGround.nExt), st.adv 2)
    else eatWikiText cfg tagParserFunction w s st

/-- `eatTemplatePageName( haveAte )`. -/
def eatTemplatePageName (cfg : Cfg) (haveAte : Bool) (w : World) (s : MwState)
    (st : MStream) : Option StepRes :=
  match reWsPipeWs st.rest with
  | some n =>
    some ((makeLocalStyle tagTemplateDelimiter
        (setTk s (Tk.eatTemplateArgument true)) none).1,
      w, setTk s (Tk.eatTemplateArgument true), st.adv n)
  | none =>
  match reWsCloseTpl st.rest with
  | some n =>
    match popTk s with
    | none => none
    | some s1 =>
      some ((makeLocalStyle tagTemplateBracket s1 (some EndGround.nTemplate)).1,
        w, applyEndGround s1 (some EndGround.nTemplate), st.adv n)
  | none =>
  match reWsComment st.rest with
  | some n =>
    some ((makeLocalStyle tagComment s none).1, w, s, st.adv n)
  | none =>
  if haveAte && st.sol then
    -- @todo error message
    match popTk { s with nTemplate := s.nTemplate - 1 } with
    | none => none
    | some s1 => some ("", w, s1, st)
  else
    match reWsTplName st.rest with
    | some n =>
      some ((makeLocalStyle tagTemplateName
          (setTk s (Tk.eatTemplatePageName true)) none).1,
        w, setTk s (Tk.eatTemplatePageName true), st.adv n)
    | none =>
      let sp := countWhile jsSpace st.rest
      if 0 < sp then
        -- both the eol and the non-eol sub-branches return the same style
        some ((makeLocalStyle tagTemplateName s none).1, w, s, st.adv sp)
      else eatWikiText cfg tagTemplateName w s st

/-- `eatTemplateArgument( expectArgName )`. -/
def eatTemplateArgument (cfg : Cfg) (expectArgName : Bool) (w : World)
    (s : MwState) (st : MStream) : Option StepRes :=
  let argRest : Option StepRes :=
    let n := countWhile tplArgChar st.rest
    if 0 < n then
      some ((makeLocalStyle tagTemplate s none).1, w, s, st.adv n)
    else if st.peekCh = some '|' then
      some ((makeLocalStyle tagTemplateDelimiter
          (setTk s (Tk.eatTemplateArgument true)) none).1,
        w, setTk s (Tk.eatTemplateArgument true), st.adv 1)
    else if ['}', '}'].isPrefixOf st.rest then
      match popTk s with
      | none => none
      | some s1 =>
        some ((makeLocalStyle tagTemplateBracket s1 (some EndGround.nTemplate)).1,
          w, applyEndGround s1 (some EndGround.nTemplate), st.adv 2)
    else eatWikiText cfg tagTemplate w s st
  if expectArgName then
    let n := countWhile tplArgNameChar st.rest
    if 0 < n then
      let st1 := st.adv n
      if st1.peekCh = some '=' then
        some ((makeLocalStyle tagTemplateArgumentName
            (setTk s (Tk.eatTemplateArgument false)) none).1,
          w, setTk s (Tk.eatTemplateArgument false), st1.adv 1)
      else
        some ((makeLocalStyle tagTemplate s none).1, w, s, st1)
    else argRest
  else argRest

/-- `eatExternalLinkProtocol( chars )`. -/
def eatExternalLinkProtocol (chars : Nat) (w : World) (s : MwState) (st : MStream) :
    Option StepRes :=
  let st1 := st.consumeN chars
  if st1.eol then
    -- @todo error message
    match popTk { s with nLink := s.nLink - 1 } with
    | none => none
    | some s1 =>
      some ((makeLocalStyle tagExtLinkProtocol s1 none).1, w, s1, st1)
  else
    some ((makeLocalStyle tagExtLinkProtocol (setTk s Tk.inExternalLink) none).1,
      w, setTk s Tk.inExternalLink, st1)

/-- `inExternalLink( stream, state )`. -/
def inExternalLink (cfg : Cfg) (w : World) (s : MwState) (st : MStream) :
    Option StepRes :=
  if st.sol then
    -- @todo error message
    match popTk { s with nLink := s.nLink - 1 } with
    | none => none
    | some s1 => some ("", w, s1, st)
  else
    match reWsCloseBracket st.rest with
    | some n =>
      match popTk s with
      | none => none
      | some s1 =>
        some ((makeLocalStyle tagExtLinkBracket s1 (some EndGround.nLink)).1,
          w, applyEndGround s1 (some EndGround.nLink), st.adv n)
    | none =>
      let sp := countWhile jsSpace st.rest
      if 0 < sp then
        some ((makeStyle w "" (setTk s Tk.inExternalLinkText) none).1,
          w, setTk s Tk.inExternalLinkText, st.adv sp)
      else
        match reExtLinkChunk st.rest with
        | some n =>
          let st3 := st.adv n
          if st3.peekCh = some '\'' then
            if ['\'', '\''].isPrefixOf st3.rest then
              some ((makeStyle w tagExtLink (setTk s Tk.inExternalLinkText) none).1,
                w, setTk s Tk.inExternalLinkText, st3)
            else
              some ((makeStyle w tagExtLink s none).1, w, s, st3.adv 1)
          else
            some ((makeStyle w tagExtLink s none).1, w, s, st3)
        | none => eatWikiText cfg tagExtLink w s st

/-- `inExternalLinkText( stream, state )`. -/
def inExternalLinkText (cfg : Cfg) (w : World) (s : MwState) (st : MStream) :
    Option StepRes :=
  if st.sol then
    -- @todo error message
    match popTk { s with nLink := s.nLink - 1 } with
    | none => none
    | some s1 => some ("", w, s1, st)
  else if st.peekCh = some ']' then
    match popTk s with
    | none => none
    | some s1 =>
      some ((makeLocalStyle tagExtLinkBracket s1 (some EndGround.nLink)).1,
        w, applyEndGround s1 (some EndGround.nLink), st.adv 1)
  else
    match reExtLinkTextChunk st.rest with
    | some n =>
      some ((makeStyle w tagExtLinkText s none).1, w, s, st.adv n)
    | none => eatWikiText cfg tagExtLinkText w s st

/-- `inLink( stream, state )`. -/
def inLink (cfg : Cfg) (w : World) (s : MwState) (st : MStream) :
    Option StepRes :=
  if st.sol then
    -- @todo error message
    match popTk { s with nLink := s.nLink - 1 } with
    | none => none
    | some s1 => some ("", w, s1, st)
  else
    match reWsHashWs st.rest with
    | some n =>
      some ((makeLocalStyle tagLink (setTk s Tk.inLinkToSection) none).1,
        w, setTk s Tk.inLinkToSection, st.adv n)
    | none =>
    match reWsPipeWs st.rest with
    | some n =>
      some ((makeLocalStyle tagLinkDelimiter
          (setTk s (Tk.eatLinkText w.linkCells.length)) none).1,
        (allocCell w).2, setTk s (Tk.eatLinkText w.linkCells.length), st.adv n)
    | none =>
    match reWsCloseLink st.rest with
    | some n =>
      match popTk s with
      | none => none
      | some s1 =>
        some ((makeLocalStyle tagLinkBracket s1 (some EndGround.nLink)).1,
          w, applyEndGround s1 (some EndGround.nLink), st.adv n)
    | none =>
      match reWsLinkText st.rest with
      | some n =>
        some ((makeStyle w (tagLinkPageName ++ " " ++ tagPageName) s none).1,
          w, s, st.adv n)
      | none =>
        let sp := countWhile jsSpace st.rest
        if 0 < sp then
          some ((makeStyle w (tagLinkPageName ++ " " ++ tagPageName) s none).1,
            w, s, st.adv sp)
        else eatWikiText cfg (tagLinkPageName ++ " " ++ tagPageName) w s st

/-- `inLinkToSection( stream, state )`. -/
def inLinkToSection (cfg : Cfg) (w : World) (s : MwState) (st : MStream) :
    Option StepRes :=
  if st.sol then
    -- @todo error message
    match popTk { s with nLink := s.nLink - 1 } with
    | none => none
    | some s1 => some ("", w, s1, st)
  else
    match reLinkToSection st.rest with
    | some n =>
      some ((makeLocalStyle tagLinkToSection s none).1, w, s, st.adv n)
    | none =>
      if st.peekCh = some '|' then
        some ((makeLocalStyle tagLinkDelimiter
            (setTk s (Tk.eatLinkText w.linkCells.length)) none).1,
          (allocCell w).2, setTk s (Tk.eatLinkText w.linkCells.length), st.adv 1)
      else if [']', ']'].isPrefixOf st.rest then
        match popTk s with
        | none => none
        | some s1 =>
          some ((makeLocalStyle tagLinkBracket s1 (some EndGround.nLink)).1,
            w, applyEndGround s1 (some EndGround.nLink), st.adv 2)
      else eatWikiText cfg tagLinkToSection w s st

/-- The apostrophes token identifier (`modeConfig.tags.apostrophes`). -/
def tagApostrophes : String := "character"

/-- `eatLinkText()` with its captured mutable `linkIsBold` and `linkIsItalic`
read through the closure cell. -/
def eatLinkText (cfg : Cfg) (cell : Nat) (w : World) (s : MwState) (st : MStream) :
    Option StepRes :=
  if [']', ']'].isPrefixOf st.rest then
    match popTk s with
    | none => none
    | some s1 =>
      some ((makeLocalStyle tagLinkBracket s1 (some EndGround.nLink)).1,
        w, applyEndGround s1 (some EndGround.nLink), st.adv 2)
  else if ['\'', '\'', '\''].isPrefixOf st.rest then
    some ((makeLocalStyle (tagLinkText ++ " " ++ tagApostrophes) s none).1,
      setCell w cell (!(getCell w cell).1, (getCell w cell).2), s, st.adv 3)
  else if ['\'', '\''].isPrefixOf st.rest then
    some ((makeLocalStyle (tagLinkText ++ " " ++ tagApostrophes) s none).1,
      setCell w cell ((getCell w cell).1, !(getCell w cell).2), s, st.adv 2)
  else
    let tmpstyle :=
      (if (getCell w cell).1 then tagLinkText ++ " " ++ tagStrong else tagLinkText) ++
      (if (getCell w cell).2 then " " ++ tagEm else "")
    match reExtLinkTextChunk st.rest with
    | some n =>
      some ((makeStyle w tmpstyle s none).1, w, s, st.adv n)
    | none => eatWikiText cfg tmpstyle w s st

/-- `eatTagName( chars, isCloseTag, isHtmlTag )`. -/
def eatTagName (chars : Nat) (isCloseTag isHtmlTag : Bool) (w : World)
    (s : MwState) (st : MStream) : Option StepRes :=
  let name := String.mk (st.rest.take chars)
  let st1 := st.consumeN chars
  let st2 := st1.adv (countWhile jsSpace st1.rest)
  if isHtmlTag then
    let s1 :=
      if isCloseTag && !implicitlyClosedHtmlTags.contains name then
        setTk s (Tk.eatChar '>' tagHtmlTagBracket)
      else setTk s (Tk.eatHtmlTagAttribute name)
    some ((makeLocalStyle tagHtmlTagName s1 none).1, w, s1, st2)
  else
    -- it is the extension tag
    let s1 :=
      if isCloseTag then setTk s (Tk.eatChar '>' tagExtTagBracket)
      else setTk s (Tk.eatExtTagAttribute name)
    some ((makeLocalStyle tagExtTagName s1 none).1, w, s1, st2)

/-- `eatHtmlTagAttribute( name )`. -/
def eatHtmlTagAttribute (cfg : Cfg) (name : String) (w : World) (s : MwState)
    (st : MStream) : Option StepRes :=
  match reAttr true st.rest with
  | some n =>
    some ((makeLocalStyle tagHtmlTagAttribute s none).1, w, s, st.adv n)
  | none =>
    if st.peekCh = some '>' then
      let s1 :=
        if !implicitlyClosedHtmlTags.contains name then
          { s with inHtmlTag := name :: s.inHtmlTag }
        else s
      match popTk s1 with
      | none => none
      | some s2 =>
        some ((makeLocalStyle tagHtmlTagBracket s2 none).1, w, s2, st.adv 1)
    else if ['/', '>'].isPrefixOf st.rest then
      match popTk s with
      | none => none
      | some s1 =>
        some ((makeLocalStyle tagHtmlTagBracket s1 none).1, w, s1, st.adv 2)
    else eatWikiText cfg tagHtmlTagAttribute w s st

/-- Look up a tag name in `config.tagModes`. -/
def tagModeFor (cfg : Cfg) (name : String) : Option ExtM :=
  (cfg.tagModes.find? (fun p => p.1 == name)).map (·.2)

/-- `eatExtTagAttribute( name )`. -/
def eatExtTagAttribute (cfg : Cfg) (name : String) (w : World) (s : MwState)
    (st : MStream) : Option StepRes :=
  match reAttr false st.rest with
  | some n =>
    some ((makeLocalStyle tagExtTagAttribute s none).1, w, s, st.adv n)
  | none =>
    if st.peekCh = some '>' then
      let s1 := { s with extName := some name }
      let s2 :=
        match tagModeFor cfg name with
        | some m => { s1 with extMode := some m, extState := true }
        | none => s1
      some ((makeLocalStyle tagExtTagBracket (setTk s2 (Tk.eatExtTagArea name)) none).1,
        w, setTk s2 (Tk.eatExtTagArea name), st.adv 1)
    else if ['/', '>'].isPrefixOf st.rest then
      match popTk s with
      | none => none
      | some s1 =>
        some ((makeLocalStyle tagExtTagBracket s1 none).1, w, s1, st.adv 2)
    else eatWikiText cfg tagExtTagAttribute w s st

/-- `eatExtCloseTag( name )`. -/
def eatExtCloseTag (name : String) (w : World) (s : MwState) (st : MStream) :
    Option StepRes :=
  let st2 := st.consumeN 2 -- eat <, eat /
  let s1 := setTk s (Tk.eatTagName name.length true false)
  some ((makeLocalStyle tagExtTagBracket s1 none).1, w, s1, st2)

/-- `eatExtTokens( origString )`. -/
def eatExtTokens (origString : Option (List Char)) (w : World) (s : MwState)
    (st : MStream) : Option StepRes :=
  let retSt : String × MStream :=
    match s.extMode with
    | none => (tagExtTag, st.skipToEnd)
    | some m =>
      ((tagForExtName s.extName) ++ " " ++ (eatNowiki (extModeStyle m) st).1,
        (eatNowiki (extModeStyle m) st).2)
  if retSt.2.eol then
    let st2 :=
      match origString with
      | some o => { retSt.2 with str := o }
      | none => retSt.2
    match popTk s with
    | none => none
    | some s1 =>
      some ((makeLocalStyle retSt.1 s1 none).1, w, s1, st2)
  else
    some ((makeLocalStyle retSt.1 s none).1, w, s, retSt.2)

/-- `eatExtTagArea( name )`. -/
def eatExtTagArea (name : String) (w : World) (s : MwState) (st : MStream) :
    Option StepRes :=
  match findCloseTag name.toList st.rest with
  | some 0 =>
    let s1 := setTk s (Tk.eatExtCloseTag name)
    let s2 := { s1 with extName := none }
    let s3 := if s2.extMode.isSome then { s2 with extMode := none, extState := false } else s2
    eatExtCloseTag name w s3 st
  | some i =>
    let st1 := { st with str := st.str.take (i + st.pos) }
    eatExtTokens (some st.str) w (chainTo s (Tk.eatExtTokens (some st.str))) st1
  | none =>
    eatExtTokens none w (chainTo s (Tk.eatExtTokens none)) st

/-- `eatStartTable( stream, state )`. -/
def eatStartTable (w : World) (s : MwState) (st : MStream) : Option StepRes :=
  let st1 := if ['{', '|'].isPrefixOf st.rest then st.adv 2 else st
  let st2 := st1.adv (countWhile jsSpace st1.rest)
  some (tagTableBracket, w, setTk s Tk.inTableDefinition, st2)

/-- `inTable( stream, state )`. -/
def inTable (cfg : Cfg) (w : World) (s : MwState) (st : MStream) :
    Option StepRes :=
  if st.sol then
    let st1 := st.adv (countWhile jsSpace st.rest)
    if st1.peekCh = some '|' then
      let st2 := st1.adv 1
      if st2.peekCh = some '-' then
        let st3 := (st2.adv 1).adv (countWhile jsSpace (st2.adv 1).rest)
        some ((makeLocalStyle tagTableDelimiter (setTk s Tk.inTableDefinition) none).1,
          w, setTk s Tk.inTableDefinition, st3)
      else if st2.peekCh = some '+' then
        let st3 := (st2.adv 1).adv (countWhile jsSpace (st2.adv 1).rest)
        some ((makeLocalStyle tagTableDelimiter (setTk s Tk.inTableCaption) none).1,
          w, setTk s Tk.inTableCaption, st3)
      else if st2.peekCh = some '}' then
        match popTk s with
        | none => none
        | some s1 =>
          some ((makeLocalStyle tagTableBracket s1 none).1, w, s1, st2.adv 1)
      else
        let st3 := st2.adv (countWhile jsSpace st2.rest)
        some ((makeLocalStyle tagTableDelimiter
            (setTk s (Tk.eatTableRow true false)) none).1,
          w, setTk s (Tk.eatTableRow true false), st3)
    else if st1.peekCh = some '!' then
      let st3 := (st1.adv 1).adv (countWhile jsSpace (st1.adv 1).rest)
      some ((makeLocalStyle tagTableDelimiter
          (setTk s (Tk.eatTableRow true true)) none).1,
        w, setTk s (Tk.eatTableRow true true), st3)
    else eatWikiText cfg "" w s st1
  else eatWikiText cfg "" w s st

/-- `inTableDefinition( stream, state )`. -/
def inTableDefinition (cfg : Cfg) (w : World) (s : MwState) (st : MStream) :
    Option StepRes :=
  if st.sol then inTable cfg w (setTk s Tk.inTable) st
  else eatWikiText cfg tagTableDefinition w s st

/-- `inTableCaption( stream, state )`. -/
def inTableCaption (cfg : Cfg) (w : World) (s : MwState) (st : MStream) :
    Option StepRes :=
  if st.sol && (reWsTableMark st.rest).isSome then
    inTable cfg w (setTk s Tk.inTable) st
  else eatWikiText cfg tagTableCaption w s st

/-- `eatTableRow( isStart, isHead )`. -/
def eatTableRow (cfg : Cfg) (isStart isHead : Bool) (w : World) (s : MwState)
    (st : MStream) : Option StepRes :=
  if st.sol then
    if (reWsTableMark st.rest).isSome then
      inTable cfg w (setTk s Tk.inTable) st
    else eatWikiText cfg (if isHead then tagStrong else "") w s st
  else
    match reTableText st.rest with
    | some n =>
      some ((makeStyle w (if isHead then tagStrong else "") s none).1, w, s, st.adv n)
    | none =>
      let hit : Option MStream :=
        if ['|', '|'].isPrefixOf st.rest then some (st.adv 2)
        else if isHead && ['!', '!'].isPrefixOf st.rest then some (st.adv 2)
        else if isStart && st.peekCh = some '|' then some (st.adv 1)
        else none
      match hit with
      | some st1 =>
        let s1 := if isStart then setTk s (Tk.eatTableRow false isHead) else s
        some ((makeLocalStyle tagTableDelimiter s1 none).1,
          { w with isBold := false, isItalic := false }, s1, st1)
      | none => eatWikiText cfg (if isHead then tagStrong else "") w s st

/-- `eatFreeExternalLinkProtocol( stream, state )`. -/
def eatFreeExternalLinkProtocol (cfg : Cfg) (w : World) (s : MwState)
    (st : MStream) : Option StepRes :=
  let st1 :=
    match cfg.protoMatch st.rest with
    | some n => st.adv n
    | none => st
  some ((makeLocalStyle tagFreeExtLinkProtocol
      (setTk s Tk.eatFreeExternalLink) none).1,
    w, setTk s Tk.eatFreeExternalLink, st1)

/-- `eatFreeExternalLink( stream, state )`. -/
def eatFreeExternalLink (w : World) (s : MwState) (st : MStream) :
    Option StepRes :=
  let finish : MStream → Option StepRes := fun st' =>
    match popTk s with
    | none => none
    | some s1 => some ((makeLocalStyle tagFreeExtLink s1 none).1, w, s1, st')
  let keep : MStream → Option StepRes := fun st' =>
    some ((makeLocalStyle tagFreeExtLink s none).1, w, s, st')
  if st.eol then
    -- @todo error message
    finish st
  else
    let st1 := st.adv (reFreeChunk st.rest)
    if st1.peekCh = some '~' then
      if !(3 ≤ countWhile (· == '~') st1.rest) then
        keep (st1.adv (countWhile (· == '~') st1.rest))
      else finish st1
    else if st1.peekCh = some '{' then
      if !(['{', '{'].isPrefixOf st1.rest) then keep (st1.adv 1)
      else finish st1
    else if st1.peekCh = some '\'' then
      if !(['\'', '\''].isPrefixOf st1.rest) then keep (st1.adv 1)
      else finish st1
    else
      match rePunct st1.rest with
      | some k => keep (st1.adv k)
      | none => finish st1

/-- The dispatch of `state.tokenize( stream, state )`. -/
def runTokenize (cfg : Cfg) (w : World) (s : MwState) (st : MStream) :
    Option StepRes :=
  match s.tokenize with
  | Tk.eatWikiText style => eatWikiText cfg style w s st
  | Tk.eatBlock style term cl => eatBlock style term cl w s st
  | Tk.eatEnd style => eatEnd style w s st
  | Tk.eatChar c style => eatChar c style w s st
  | Tk.eatSectionHeader count => eatSectionHeader cfg count w s st
  | Tk.inVariable => inVariable cfg w s st
  | Tk.inVariableDefault => inVariableDefault cfg w s st
  | Tk.inParserFunctionName => inParserFunctionName cfg w s st
  | Tk.inParserFunctionArguments => inParserFunctionArguments cfg w s st
  | Tk.eatTemplatePageName haveAte => eatTemplatePageName cfg haveAte w s st
  | Tk.eatTemplateArgument expectArgName => eatTemplateArgument cfg expectArgName w s st
  | Tk.eatExternalLinkProtocol chars => eatExternalLinkProtocol chars w s st
  | Tk.inExternalLink => inExternalLink cfg w s st
  | Tk.inExternalLinkText => inExternalLinkText cfg w s st
  | Tk.inLink => inLink cfg w s st
  | Tk.inLinkToSection => inLinkToSection cfg w s st
  | Tk.eatLinkText cell => eatLinkText cfg cell w s st
  | Tk.eatTagName chars isCloseTag isHtmlTag => eatTagName chars isCloseTag isHtmlTag w s st
  | Tk.eatHtmlTagAttribute name => eatHtmlTagAttribute cfg name w s st
  | Tk.eatExtTagAttribute name => eatExtTagAttribute cfg name w s st
  | Tk.eatExtTagArea name => eatExtTagArea name w s st
  | Tk.eatExtCloseTag name => eatExtCloseTag name w s st
  | Tk.eatExtTokens origString => eatExtTokens origString w s st
  | Tk.eatStartTable => eatStartTable w s st
  | Tk.inTableDefinition => inTableDefinition cfg w s st
  | Tk.inTableCaption => inTableCaption cfg w s st
  | Tk.inTable => inTable cfg w s st
  | Tk.eatTableRow isStart isHead => eatTableRow cfg isStart isHead w s st
  | Tk.eatFreeExternalLinkProtocol => eatFreeExternalLinkProtocol cfg w s st
  | Tk.eatFreeExternalLink => eatFreeExternalLink w s st

end MwMode

namespace MwMode

/-- The state snapshot stored into a buffered token:
`( state.extMode && state.extMode.copyState || copyState )( state )`.  The
sub-modes of this file define no `copyState`, so the module-level `copyState`
is always selected. -/
def snapshotState (s : MwState) : MwState := copyState s

/-- `f = this.firstSingleLetterWord || this.firstMultiLetterWord ||
this.firstSpace` (all candidate positions are at least 3, so JavaScript
falsiness coincides with `Option`). -/
def rollbackPoint (w : World) : Option Nat :=
  (w.firstSingleLetterWord.orElse fun _ => w.firstMultiLetterWord).orElse
    fun _ => w.firstSpace

/-- The tail of `mediawiki.token` once the `do` loop has reached the end of
the line with a rollback point set: conflict detection, rollback, and the
hand-over of the buffered tokens to `oldTokens`. -/
def tokenFinish (w : World) (s : MwState) (st : MStream)
    (readyTokens tmpTokens : List MwTok) : Option StepRes :=
  if w.isBold && w.isItalic then
    -- needs to rollback: restore status
    let w1 := { w with isItalic := w.wasItalic, isBold := w.wasBold
                       firstSingleLetterWord := none, firstMultiLetterWord := none
                       firstSpace := none }
    match readyTokens with
    | [] =>
      -- there are no tickets before the point of rollback
      match tmpTokens.head? with
      | some t0 => some (w1.oldStyle.getD "", w1, s, { st with pos := t0.pos - 2 })
      | none => none
    | _ :: _ =>
      -- add one apostrophe, next token will be italic (two apostrophes)
      let ready' := readyTokens.dropLast ++
        (match readyTokens.getLast? with
         | some tl => [{ tl with pos := tl.pos + 1 }]
         | none => [])
      match ready' with
      | t :: restToks =>
        some (t.style, { w1 with oldTokens := restToks }, s, { st with pos := t.pos })
      | [] => none
  else
    -- do not need to rollback: send all saved tokens
    match readyTokens ++ tmpTokens with
    | t :: restToks =>
      some (t.style, { w with oldTokens := restToks }, s, { st with pos := t.pos })
    | [] => none

/-- The `do ... while ( !stream.eol() )` loop of `mediawiki.token`, with fuel
(each iteration either advances the stream or pops the continuation stack, so
any sufficiently large fuel is equivalent). -/
def tokenLoop (cfg : Cfg) : Nat → World → MwState → MStream → Option Nat →
    List MwTok → List MwTok → Option StepRes
  | 0, _, _, _, _, _, _ => none
  | fuel + 1, w, s, st, p, readyTokens, tmpTokens =>
    match runTokenize cfg w s st with
    | none => none
    | some (style, w1, s1, st1) =>
      match rollbackPoint w1 with
      | some f =>
        -- rollback point exists
        let (ready', tmp') :=
          if some f ≠ p then (readyTokens ++ tmpTokens, [])
          else (readyTokens, tmpTokens)
        let tok : MwTok := { pos := st1.pos, style := style, state := snapshotState s1 }
        let tmp'' := tmp' ++ [tok]
        if st1.eol then tokenFinish w1 s1 st1 ready' tmp''
        else tokenLoop cfg fuel w1 s1 st1 (some f) ready' tmp''
      | none =>
        -- rollback point does not exist: remember style, return it
        some (style, { w1 with oldStyle := some style }, s1, st1)

/-- `mediawiki.token( stream, state )`: drains `oldTokens` if present, resets
the line-local formatting state at start of line, and runs the token loop. -/
def mediawikiToken (cfg : Cfg) (fuel : Nat) (w : World) (s : MwState)
    (st : MStream) : Option StepRes :=
  match w.oldTokens with
  | t :: restToks =>
    -- just send saved tokens till they exist
    some (t.style, { w with oldTokens := restToks }, s, { st with pos := t.pos })
  | [] =>
    let w0 :=
      if st.sol then
        -- reset bold and italic status in every new line
        { w with isBold := false, isItalic := false
                 firstSingleLetterWord := none, firstMultiLetterWord := none
                 firstSpace := none }
      else w
    tokenLoop cfg fuel w0 s st none [] []

/-- `mediawiki.copyState( state )`: the module-level `copyState` plus the
recursive copy of the extension sub-state when the sub-mode provides one (the
sub-modes of this file do not). -/
def mediawikiCopyState (s : MwState) : MwState := copyState s

/-- Repeatedly call `mediawikiToken` on one line until the cursor reaches the
end of the line, collecting `(end position, style)` pairs. -/
def runLine (cfg : Cfg) : Nat → World → MwState → MStream →
    List (Nat × String) → Option (World × MwState × MStream × List (Nat × String))
  | 0, _, _, _, _ => none
  | fuel + 1, w, s, st, acc =>
    if st.eol then some (w, s, st, acc)
    else
      match mediawikiToken cfg (fuel + 1) w s st with
      | none => none
      | some (style, w1, s1, st1) =>
        runLine cfg fuel w1 s1 st1 (acc ++ [(st1.pos, style)])

/-- Tokenize a line given as a character list, starting at position 0. -/
def tokenizeLine (cfg : Cfg) (w : World) (s : MwState) (line : List Char) :
    Option (World × MwState × MStream × List (Nat × String)) :=
  runLine cfg (line.length + 64) w s ⟨line, 0⟩ []

/-- Tokenize a sequence of lines, threading the world and the state. -/
def tokenizeDoc (cfg : Cfg) (w : World) (s : MwState) :
    List (List Char) → Option (World × MwState × List (List (Nat × String)))
  | [] => some (w, s, [])
  | line :: rest =>
    match tokenizeLine cfg w s line with
    | none => none
    | some (w1, s1, _, toks) =>
      match tokenizeDoc cfg w1 s1 rest with
      | none => none
      | some (w2, s2, tokss) => some (w2, s2, toks :: tokss)

/-- Iterate the raw `state.tokenize` dispatch (without the buffering wrapper),
collecting `(end position, style)` pairs; used to observe the instance fields
mid-line. -/
def runInnerSteps (cfg : Cfg) : Nat → World → MwState → MStream →
    Option (World × MwState × MStream × List (Nat × String))
  | 0, w, s, st => some (w, s, st, [])
  | fuel + 1, w, s, st =>
    match runTokenize cfg w s st with
    | none => none
    | some (style, w1, s1, st1) =>
      match runInnerSteps cfg fuel w1 s1 st1 with
      | none => none
      | some (w2, s2, st2, toks) => some (w2, s2, st2, (st1.pos, style) :: toks)

/-! ## A sample configuration -/

/-- A protocol matcher for `http://` and `https://` (case-insensitive, as the
source compiles `urlProtocols` with the `i` flag). -/
def sampleProto (l : List Char) : Option Nat :=
  if isPrefixOfCI ['h', 't', 't', 'p', 's', ':', '/', '/'] l then some 8
  else if isPrefixOfCI ['h', 't', 't', 'p', ':', '/', '/'] l then some 7
  else none

/-- A small concrete configuration: `ref`, `pre` and `nowiki` extension tags,
with `pre` and `nowiki` delegated to the sub-modes of this file. -/
def sampleCfg : Cfg :=
  { protoMatch := sampleProto
    tags := ["ref", "pre", "nowiki"]
    tagModes := [("pre", ExtM.pre), ("nowiki", ExtM.nowiki)]
    functionSynonyms0 := ["if", "ifeq", "lc", "uc"]
    functionSynonyms1 := []
    doubleUnderscore0 := ["__toc__", "__notoc__"]
    doubleUnderscore1 := [] }

theorem sampleCfg_wf : WfCfg sampleCfg := by
  intro l n h
  simp only [sampleCfg, sampleProto] at h
  split at h <;> [skip; split at h] <;> simp_all <;> omega

end MwMode

namespace MwMode

/-! ## The fold-range resolver (fold.ts)

`foldable` operates on the syntax tree produced from the token stream: a
sequence of sibling spans, each carrying its node name (the style string
emitted by the tokenizer) and its document range.  `Span.text` carries the
covered document text (`state.sliceDoc(node.from, node.to)`). -/

structure Span where
  name : String
  fromPos : Nat
  toPos : Nat
  text : List Char
deriving DecidableEq, Repr

/-- Modelled from the spec: fold.ts reads a `tokens` map from its local
config module, which is not among the provided sources.  Per the spec the
resolver recognizes components by token-name containment over the spans the
tokenizer emits, so the map is taken to assign each component the same token
identifier `modeConfig.tags` gives it above.  `isComponent( keys )` checks
whether the node name includes one of the keys' tokens. -/
def isComponent (keys : List String) (sp : Span) : Bool :=
  keys.any fun key => containsSub sp.name.toList key.toList

/-- `isTemplateBracket`. -/
def isTemplateBracket (sp : Span) : Bool :=
  isComponent [tagTemplateBracket, tagParserFunctionBracket] sp

/-- `isDelimiter`. -/
def isDelimiter (sp : Span) : Bool :=
  isComponent [tagTemplateDelimiter, tagParserFunctionDelimiter] sp

/-- A character of the `[a-z\d-]` class. -/
def groundClassChar (c : Char) : Bool :=
  ('a' ≤ c && c ≤ 'z') || c.isDigit || c == '-'

/-- One or more `[a-z\d-]` characters followed by the literal `ground`. -/
def groundTail : List Char → Bool
  | [] => false
  | c :: r =>
    groundClassChar c &&
    (['g', 'r', 'o', 'u', 'n', 'd'].isPrefixOf r || groundTail r)

/-- The regex `-(?:template|ext)[a-z\d-]+ground` (u flag) as a containment test. -/
def hasTemplateExtGround : List Char → Bool
  | [] => false
  | c :: t =>
    (['-', 't', 'e', 'm', 'p', 'l', 'a', 't', 'e'].isPrefixOf (c :: t) &&
      groundTail ((c :: t).drop 9)) ||
    (['-', 'e', 'x', 't'].isPrefixOf (c :: t) && groundTail ((c :: t).drop 4)) ||
    hasTemplateExtGround t

/-- `isTemplate`: part of a template ground, except for the brackets. -/
def isTemplate (sp : Span) : Bool :=
  hasTemplateExtGround sp.name.toList && !isTemplateBracket sp

/-- `isExtBracket`. -/
def isExtBracket (sp : Span) : Bool :=
  isComponent [tagExtTagBracket] sp

/-- `isExt`: part of an extension tag (`mw-tag-...` content). -/
def isExt (sp : Span) : Bool :=
  containsSub sp.name.toList ['m', 'w', '-', 't', 'a', 'g', '-']

/-- `stackUpdate`: opening (+1) or closing (-1) bracket, by whether the
covered text includes `{`. -/
def stackUpdate (sp : Span) : Int :=
  if sp.text.contains '{' then 1 else -1

/-- The forward sibling walk of `foldable`: maintains the bracket stack
(seeded at 1 by the caller) and the first delimiter seen at stack 1; stops at
the sibling that brings the stack to 0 (the closing bracket) or at the end of
the siblings (unterminated, `none`). -/
def fwdWalk : List Span → Int → Option Span → Option (Span × Option Span)
  | [], _, _ => none
  | sp :: rest, stack, delim =>
    if isTemplateBracket sp then
      let stack' := stack + stackUpdate sp
      if stack' = 0 then some (sp, delim)
      else fwdWalk rest stack' delim
    else if delim.isNone && stack = 1 && isDelimiter sp then
      fwdWalk rest stack (some sp)
    else fwdWalk rest stack delim

/-- The backward sibling walk of `foldable` (over the reversed prefix):
updates the delimiter to any earlier one found while the stack is -1 and
stops when the stack reaches 0 (the opening bracket); exhausting the
siblings is not an error. -/
def backWalk : List Span → Int → Option Span → Option Span
  | [], _, delim => delim
  | sp :: rest, stack, delim =>
    if isTemplateBracket sp then
      let stack' := stack + stackUpdate sp
      if stack' = 0 then delim
      else backWalk rest stack' delim
    else if stack = -1 && isDelimiter sp then backWalk rest stack (some sp)
    else backWalk rest stack delim

/-- Modelled from the spec: `matchTag` (imported by fold.ts from
`./matchTag`, not among the provided sources) resolves the opening tag
matching an extension close bracket; the extension fold range starts at the
end of the open tag's closing bracket run (spec section 4.5).  Over the
reversed preceding siblings that end position is the `toPos` of the nearest
extension-bracket span. -/
def extOpenEnd (pre : List Span) : Option Nat :=
  (pre.find? isExtBracket).map (·.toPos)

/-- `foldable( state, node, tree )` over the sibling sequence `doc`, anchored
at index `i`. -/
def foldable (doc : List Span) (i : Nat) : Option (Nat × Nat) :=
  match doc.get? i with
  | none => none
  | some node =>
    if !isTemplate node then
      -- Not a template
      if isExt node then
        match (doc.drop (i + 1)).find?
            (fun sp => isExtBracket sp && containsSub sp.text ['<', '/']) with
        | some sib =>
          -- The closing bracket of the current extension tag
          match extOpenEnd ((doc.take i).reverse) with
          | some e => some (e, sib.fromPos)
          | none => none
        | none => none
      else none
    else
      let delim0 : Option Span := if isDelimiter node then some node else none
      match fwdWalk (doc.drop (i + 1)) 1 delim0 with
      | none =>
        -- The closing bracket of the current template is missing
        none
      | some (closeSp, delim1) =>
        let delim2 := backWalk ((doc.take i).reverse) (-1) delim1
        match delim2 with
        | some dl =>
          -- from = delimiter.to, to = closing bracket.from; `from && from < to`
          if 0 < dl.toPos && dl.toPos < closeSp.fromPos then
            some (dl.toPos, closeSp.fromPos)
          else none
        | none => none

/-- Build the sibling spans of one tokenized line: each styled token becomes
one named span (tokens with an empty style produce no syntax-tree node). -/
def spansFrom (line : List Char) : List (Nat × String) → Nat → List Span
  | [], _ => []
  | (p, sty) :: rest, prev =>
    if sty = "" then spansFrom line rest p
    else
      { name := sty, fromPos := prev, toPos := p
        text := (line.drop prev).take (p - prev) } :: spansFrom line rest p

/-- Tokenize a line from the initial state and produce its sibling spans. -/
def lineSpans (cfg : Cfg) (line : List Char) : List Span :=
  match tokenizeLine cfg freshWorld startState line with
  | some (_, _, _, toks) => spansFrom line toks 0
  | none => []

end MwMode

namespace MwMode

/-! ## Counter bookkeeping

Each link-family continuation was installed together with an `nLink`
increment and is retired together with an `nLink` decrement (and likewise
for the template and parser-function families), so each counter always
equals the number of continuations of its family among
`state.tokenize :: state.stack`.  The counts below define that
correspondence. -/

/-- Template-family continuations (installed with `nTemplate++`). -/
def tkT : Tk → Nat
  | Tk.eatTemplatePageName _ => 1
  | Tk.eatTemplateArgument _ => 1
  | _ => 0

/-- Link-family continuations (installed with `nLink++`). -/
def tkL : Tk → Nat
  | Tk.inLink => 1
  | Tk.inLinkToSection => 1
  | Tk.eatLinkText _ => 1
  | Tk.inExternalLink => 1
  | Tk.inExternalLinkText => 1
  | Tk.eatExternalLinkProtocol _ => 1
  | _ => 0

/-- Parser-function-family continuations (installed with `nExt++`). -/
def tkE : Tk → Nat
  | Tk.inParserFunctionName => 1
  | Tk.inParserFunctionArguments => 1
  | _ => 0

/-- Sum of a family count over a continuation list. -/
def sumTk (f : Tk → Nat) : List Tk → Nat
  | [] => 0
  | tk :: rest => f tk + sumTk f rest

/-- The counter invariant: each nesting counter equals the number of
continuations of its family currently installed or suspended. -/
def CounterInv (s : MwState) : Prop :=
  s.nTemplate = (sumTk tkT (s.tokenize :: s.stack) : Int) ∧
  s.nLink = (sumTk tkL (s.tokenize :: s.stack) : Int) ∧
  s.nExt = (sumTk tkE (s.tokenize :: s.stack) : Int)

/-- States reachable from `startState` by `mediawiki.token` calls (with any
interleaved world, stream contents and fuel). -/
inductive Reach (cfg : Cfg) : MwState → Prop where
  | start : Reach cfg startState
  | step {fuel : Nat} {w : World} {s : MwState} {st : MStream} {out : StepRes} :
      Reach cfg s → mediawikiToken cfg fuel w s st = some out →
      Reach cfg out.2.2.1

/-! ## Concrete demo inputs -/

/-- The line `{{foo` (template opened, page name read, no close). -/
def lineTplOpen : List Char := ['{', '{', 'f', 'o', 'o']

/-- A one-character continuation line. -/
def lineX : List Char := ['x']

/-- The line `{{foo|bar` of the unterminated-template scenario. -/
def lineTplArg : List Char := ['{', '{', 'f', 'o', 'o', '|', 'b', 'a', 'r']

/-- The line `[[a|` (wikilink with the link-text tokenizer installed). -/
def lineLinkOpen : List Char := ['[', '[', 'a', '|']

/-- The continuation line `'''x]]` fed to a state and to its copy. -/
def lineLinkCont : List Char := ['\'', '\'', '\'', 'x', ']', ']']

/-- The line `ab''' c'''d` (two bold toggles with distinct rollback
candidates). -/
def lineApoConflict : List Char :=
  ['a', 'b', '\'', '\'', '\'', ' ', 'c', '\'', '\'', '\'', 'd']

/-- The line `{{t|a=1|b=2}}` of the fold demo. -/
def lineTplDemo : List Char :=
  ['{', '{', 't', '|', 'a', '=', '1', '|', 'b', '=', '2', '}', '}']

end MwMode

namespace MwMode

/-- The line `{{t}}` (template without arguments). -/
def lineTplNoArg : List Char := ['{', '{', 't', '}', '}']

/-! # Lemmas -/

theorem sumTk_cons (f : Tk → Nat) (tk : Tk) (l : List Tk) :
    sumTk f (tk :: l) = f tk + sumTk f l := rfl

theorem popTk_some {s s₁ : MwState} (h : popTk s = some s₁) :
    s.stack = s₁.tokenize :: s₁.stack ∧ s₁.nTemplate = s.nTemplate ∧
    s₁.nLink = s.nLink ∧ s₁.nExt = s.nExt := by
  unfold popTk at h
  split at h
  · exact absurd h (by simp)
  · next tk rest heq =>
    cases h
    simp [heq]

/-- A pop without an end-ground decrement preserves the counter invariant when
the retiring continuation has zero family counts. -/
theorem counterInv_pop0 {s s₁ : MwState}
    (h0 : tkT s.tokenize = 0 ∧ tkL s.tokenize = 0 ∧ tkE s.tokenize = 0)
    (hInv : CounterInv s) (h : popTk s = some s₁) : CounterInv s₁ := by
  obtain ⟨hstk, hT, hL, hE⟩ := popTk_some h
  obtain ⟨iT, iL, iE⟩ := hInv
  obtain ⟨zT, zL, zE⟩ := h0
  refine ⟨?_, ?_, ?_⟩ <;>
    simp only [hT, hL, hE, iT, iL, iE, hstk, sumTk_cons, zT, zL, zE] <;> push_cast <;> ring

/-- Replacing the active continuation by one with the same family counts
preserves the invariant. -/
theorem counterInv_setTk {s : MwState} {tk : Tk}
    (hT : tkT tk = tkT s.tokenize) (hL : tkL tk = tkL s.tokenize)
    (hE : tkE tk = tkE s.tokenize)
    (hInv : CounterInv s) : CounterInv (setTk s tk) := by
  obtain ⟨iT, iL, iE⟩ := hInv
  refine ⟨?_, ?_, ?_⟩ <;>
    simp [setTk, sumTk_cons, hT, hL, hE, iT, iL, iE]

/-- The invariant only reads the counters, the active continuation and the
stack. -/
theorem counterInv_congr {s s' : MwState} (hInv : CounterInv s)
    (hT : s'.nTemplate = s.nTemplate) (hL : s'.nLink = s.nLink)
    (hE : s'.nExt = s.nExt) (htk : s'.tokenize = s.tokenize)
    (hstk : s'.stack = s.stack) : CounterInv s' := by
  obtain ⟨iT, iL, iE⟩ := hInv
  exact ⟨by rw [hT, htk, hstk, iT], by rw [hL, htk, hstk, iL],
    by rw [hE, htk, hstk, iE]⟩

/-- Replacing the active continuation by one with the same family counts while
leaving the counters and the stack unchanged preserves the invariant. -/
theorem counterInv_retok {s s' : MwState} (hInv : CounterInv s)
    (hT : tkT s'.tokenize = tkT s.tokenize) (hL : tkL s'.tokenize = tkL s.tokenize)
    (hE : tkE s'.tokenize = tkE s.tokenize)
    (hnT : s'.nTemplate = s.nTemplate) (hnL : s'.nLink = s.nLink)
    (hnE : s'.nExt = s.nExt) (hstk : s'.stack = s.stack) : CounterInv s' := by
  obtain ⟨iT, iL, iE⟩ := hInv
  refine ⟨?_, ?_, ?_⟩ <;>
    simp only [sumTk_cons, hT, hL, hE, hnT, hnL, hnE, hstk, iT, iL, iE]

/-- Pushing the active continuation and installing a zero-count one preserves
the invariant. -/
theorem counterInv_chainTo0 {s : MwState} {tk : Tk}
    (h0 : tkT tk = 0 ∧ tkL tk = 0 ∧ tkE tk = 0)
    (hInv : CounterInv s) : CounterInv (chainTo s tk) := by
  obtain ⟨iT, iL, iE⟩ := hInv
  obtain ⟨zT, zL, zE⟩ := h0
  refine ⟨?_, ?_, ?_⟩ <;>
    simp [chainTo, sumTk_cons, zT, zL, zE, iT, iL, iE] <;> push_cast <;> ring

theorem counterInv_openTpl {s : MwState} (hInv : CounterInv s) :
    CounterInv (chainTo { s with nTemplate := s.nTemplate + 1 } (Tk.eatTemplatePageName false)) := by
  obtain ⟨iT, iL, iE⟩ := hInv
  refine ⟨?_, ?_, ?_⟩ <;> simp [chainTo, sumTk_cons, tkT, tkL, tkE, iT, iL, iE] <;> ring

theorem counterInv_openPf {s : MwState} (hInv : CounterInv s) :
    CounterInv (chainTo { s with nExt := s.nExt + 1 } Tk.inParserFunctionName) := by
  obtain ⟨iT, iL, iE⟩ := hInv
  refine ⟨?_, ?_, ?_⟩ <;> simp [chainTo, sumTk_cons, tkT, tkL, tkE, iT, iL, iE] <;> ring

theorem counterInv_openLink {s : MwState} (hInv : CounterInv s) :
    CounterInv (chainTo { s with nLink := s.nLink + 1 } Tk.inLink) := by
  obtain ⟨iT, iL, iE⟩ := hInv
  refine ⟨?_, ?_, ?_⟩ <;> simp [chainTo, sumTk_cons, tkT, tkL, tkE, iT, iL, iE] <;> ring

theorem counterInv_openExtLink {s : MwState} {n : Nat} (hInv : CounterInv s) :
    CounterInv (chainTo { s with nLink := s.nLink + 1 } (Tk.eatExternalLinkProtocol n)) := by
  obtain ⟨iT, iL, iE⟩ := hInv
  refine ⟨?_, ?_, ?_⟩ <;> simp [chainTo, sumTk_cons, tkT, tkL, tkE, iT, iL, iE] <;> ring

theorem counterInv_eatBlock {style term cl} {w : World} {s : MwState} {st : MStream}
    {out : StepRes}
    (h0 : tkT s.tokenize = 0 ∧ tkL s.tokenize = 0 ∧ tkE s.tokenize = 0)
    (hInv : CounterInv s)
    (h : eatBlock style term cl w s st = some out) : CounterInv out.2.2.1 := by
  unfold eatBlock at h
  try dsimp only at h
  repeat' split at h
  all_goals first
    | exact Option.noConfusion h
    | (cases h; exact hInv)
    | (cases h; exact counterInv_pop0 h0 hInv (by assumption))

theorem counterInv_eatEnd {style} {w : World} {s : MwState} {st : MStream}
    {out : StepRes}
    (h0 : tkT s.tokenize = 0 ∧ tkL s.tokenize = 0 ∧ tkE s.tokenize = 0)
    (hInv : CounterInv s)
    (h : eatEnd style w s st = some out) : CounterInv out.2.2.1 := by
  unfold eatEnd at h
  split at h
  · exact Option.noConfusion h
  · next s1 heq =>
    cases h
    exact counterInv_pop0 h0 hInv heq

theorem counterInv_eatChar {c style} {w : World} {s : MwState} {st : MStream}
    {out : StepRes}
    (h0 : tkT s.tokenize = 0 ∧ tkL s.tokenize = 0 ∧ tkE s.tokenize = 0)
    (hInv : CounterInv s)
    (h : eatChar c style w s st = some out) : CounterInv out.2.2.1 := by
  unfold eatChar at h
  split at h
  · exact Option.noConfusion h
  · next s1 heq =>
    split at h <;> (cases h; exact counterInv_pop0 h0 hInv heq)

theorem counterInv_wtApos {style} {w : World} {s : MwState} {st : MStream}
    (hInv : CounterInv s) : CounterInv (wtApos style w s st).2.2.1 := by
  unfold wtApos
  repeat' split
  all_goals exact hInv

theorem counterInv_wtOpenBracket {cfg style} {w : World} {s : MwState} {st : MStream}
    (hInv : CounterInv s) : CounterInv (wtOpenBracket cfg style w s st).2.2.1 := by
  unfold wtOpenBracket
  dsimp only
  repeat' split
  all_goals first
    | exact hInv
    | exact counterInv_openLink hInv
    | exact counterInv_openExtLink hInv

theorem counterInv_wtOpenBrace {cfg style} {w : World} {s : MwState} {st : MStream}
    (hInv : CounterInv s) : CounterInv (wtOpenBrace cfg style w s st).2.2.1 := by
  unfold wtOpenBrace
  dsimp only
  repeat' split
  all_goals first
    | exact hInv
    | exact counterInv_chainTo0 ⟨rfl, rfl, rfl⟩ hInv
    | exact counterInv_openPf hInv
    | exact counterInv_openTpl hInv

theorem counterInv_wtLt {cfg style} {w : World} {s : MwState} {st : MStream}
    {out : StepRes}
    (hInv : CounterInv s)
    (h : wtLt cfg style w s st = some out) : CounterInv out.2.2.1 := by
  unfold wtLt at h
  try dsimp only at h
  repeat' split at h
  all_goals first
    | exact Option.noConfusion h
    | (cases h; exact hInv)
    | (cases h; exact counterInv_chainTo0 ⟨rfl, rfl, rfl⟩ hInv)
    | (refine counterInv_eatBlock ⟨?_, ?_, ?_⟩ (counterInv_chainTo0 ⟨?_, ?_, ?_⟩ hInv) h <;> rfl)

theorem counterInv_wtTilde {style} {w : World} {s : MwState} {st : MStream}
    (hInv : CounterInv s) : CounterInv (wtTilde style w s st).2.2.1 := by
  unfold wtTilde
  repeat' split
  all_goals exact hInv

theorem counterInv_wtUnderscore {cfg style} {w : World} {s : MwState} {st : MStream}
    (hInv : CounterInv s) : CounterInv (wtUnderscore cfg style w s st).2.2.1 := by
  unfold wtUnderscore
  dsimp only
  repeat' split
  all_goals exact hInv

theorem counterInv_wtSpaceDefault {cfg style} {w : World} {s : MwState} {st : MStream}
    (hInv : CounterInv s) : CounterInv (wtSpaceDefault cfg style w s st).2.2.1 := by
  unfold wtSpaceDefault
  dsimp only
  repeat' split
  all_goals first
    | exact hInv
    | exact counterInv_chainTo0 ⟨rfl, rfl, rfl⟩ hInv

set_option maxHeartbeats 2000000 in
theorem counterInv_wikiMain {cfg style} {w : World} {s : MwState}
    {och : Option Char} {st : MStream} {out : StepRes}
    (hInv : CounterInv s)
    (h : wikiMain cfg style w s och st = some out) : CounterInv out.2.2.1 := by
  unfold wikiMain at h
  cases och with
  | none => cases h; exact hInv
  | some ch =>
    repeat' split at h
    all_goals first
      | (cases h; first
          | exact counterInv_wtApos hInv
          | exact counterInv_wtOpenBracket hInv
          | exact counterInv_wtOpenBrace hInv
          | exact counterInv_wtTilde hInv
          | exact counterInv_wtUnderscore hInv
          | exact counterInv_wtSpaceDefault hInv
          | exact hInv)
      | exact counterInv_wtLt hInv h

/-- Popping a link-family continuation while decrementing `nLink` preserves the
invariant. -/
theorem counterInv_popL {s s₁ : MwState}
    (h0 : tkT s.tokenize = 0 ∧ tkL s.tokenize = 1 ∧ tkE s.tokenize = 0)
    (hInv : CounterInv s) (h : popTk s = some s₁) :
    CounterInv { s₁ with nLink := s₁.nLink - 1 } := by
  obtain ⟨hstk, hT, hL, hE⟩ := popTk_some h
  obtain ⟨iT, iL, iE⟩ := hInv
  obtain ⟨zT, zL, zE⟩ := h0
  refine ⟨?_, ?_, ?_⟩ <;>
    simp only [hT, hL, hE, iT, iL, iE, hstk, sumTk_cons, zT, zL, zE] <;>
    push_cast <;> omega

/-- Popping a template-family continuation while decrementing `nTemplate`
preserves the invariant. -/
theorem counterInv_popT {s s₁ : MwState}
    (h0 : tkT s.tokenize = 1 ∧ tkL s.tokenize = 0 ∧ tkE s.tokenize = 0)
    (hInv : CounterInv s) (h : popTk s = some s₁) :
    CounterInv { s₁ with nTemplate := s₁.nTemplate - 1 } := by
  obtain ⟨hstk, hT, hL, hE⟩ := popTk_some h
  obtain ⟨iT, iL, iE⟩ := hInv
  obtain ⟨zT, zL, zE⟩ := h0
  refine ⟨?_, ?_, ?_⟩ <;>
    simp only [hT, hL, hE, iT, iL, iE, hstk, sumTk_cons, zT, zL, zE] <;>
    push_cast <;> omega

/-- Popping a parser-function continuation while decrementing `nExt` preserves
the invariant. -/
theorem counterInv_popE {s s₁ : MwState}
    (h0 : tkT s.tokenize = 0 ∧ tkL s.tokenize = 0 ∧ tkE s.tokenize = 1)
    (hInv : CounterInv s) (h : popTk s = some s₁) :
    CounterInv { s₁ with nExt := s₁.nExt - 1 } := by
  obtain ⟨hstk, hT, hL, hE⟩ := popTk_some h
  obtain ⟨iT, iL, iE⟩ := hInv
  obtain ⟨zT, zL, zE⟩ := h0
  refine ⟨?_, ?_, ?_⟩ <;>
    simp only [hT, hL, hE, iT, iL, iE, hstk, sumTk_cons, zT, zL, zE] <;>
    push_cast <;> omega

/-- The start-of-line recovery `state.nTemplate--` followed by a pop preserves
the invariant. -/
theorem counterInv_popPreT {s s₁ : MwState}
    (h0 : tkT s.tokenize = 1 ∧ tkL s.tokenize = 0 ∧ tkE s.tokenize = 0)
    (hInv : CounterInv s)
    (h : popTk { s with nTemplate := s.nTemplate - 1 } = some s₁) :
    CounterInv s₁ := by
  obtain ⟨hstk, hT, hL, hE⟩ := popTk_some h
  obtain ⟨iT, iL, iE⟩ := hInv
  obtain ⟨zT, zL, zE⟩ := h0
  refine ⟨?_, ?_, ?_⟩ <;>
    simp only [hT, hL, hE, iT, iL, iE] <;>
    simp only [show ({ s with nTemplate := s.nTemplate - 1 } : MwState).stack = s.stack
        from rfl] at hstk <;>
    simp only [hstk, sumTk_cons, zT, zL, zE] at iT iL iE ⊢ <;>
    omega

/-- The start-of-line recovery `state.nLink--` followed by a pop preserves the
invariant. -/
theorem counterInv_popPreL {s s₁ : MwState}
    (h0 : tkT s.tokenize = 0 ∧ tkL s.tokenize = 1 ∧ tkE s.tokenize = 0)
    (hInv : CounterInv s)
    (h : popTk { s with nLink := s.nLink - 1 } = some s₁) :
    CounterInv s₁ := by
  obtain ⟨hstk, hT, hL, hE⟩ := popTk_some h
  obtain ⟨iT, iL, iE⟩ := hInv
  obtain ⟨zT, zL, zE⟩ := h0
  refine ⟨?_, ?_, ?_⟩ <;>
    simp only [hT, hL, hE, iT, iL, iE] <;>
    simp only [show ({ s with nLink := s.nLink - 1 } : MwState).stack = s.stack
        from rfl] at hstk <;>
    simp only [hstk, sumTk_cons, zT, zL, zE] at iT iL iE ⊢ <;>
    omega

/-- Duplicating a zero-count active continuation onto the stack preserves the
invariant. -/
theorem counterInv_dup0 {s : MwState}
    (h0 : tkT s.tokenize = 0 ∧ tkL s.tokenize = 0 ∧ tkE s.tokenize = 0)
    (hInv : CounterInv s) :
    CounterInv { s with stack := s.tokenize :: s.stack } := by
  obtain ⟨iT, iL, iE⟩ := hInv
  obtain ⟨zT, zL, zE⟩ := h0
  refine ⟨?_, ?_, ?_⟩ <;>
    simp only [sumTk_cons, zT, zL, zE, iT, iL, iE] <;> push_cast <;> omega

theorem counterInv_wikiSolBrace {cfg style} {w : World} {s : MwState} {ch : Char}
    {st : MStream} {out : StepRes}
    (hInv : CounterInv s)
    (h : wikiSolBrace cfg style w s ch st = some out) : CounterInv out.2.2.1 := by
  unfold wikiSolBrace at h
  try dsimp only at h
  repeat' split at h
  all_goals first
    | exact counterInv_wikiMain hInv h
    | (cases h; exact counterInv_chainTo0 ⟨rfl, rfl, rfl⟩ hInv)

set_option maxHeartbeats 2000000 in
theorem counterInv_wikiSol {cfg style} {w : World} {s : MwState} {st : MStream}
    {out : StepRes}
    (hInv : CounterInv s)
    (h : eatWikiText.wikiSol cfg style w s st = some out) : CounterInv out.2.2.1 := by
  unfold eatWikiText.wikiSol at h
  try dsimp only at h
  repeat' split at h
  all_goals first
    | exact counterInv_wikiMain hInv h
    | exact counterInv_wikiSolBrace hInv h
    | (cases h; first
        | exact counterInv_chainTo0 ⟨rfl, rfl, rfl⟩ hInv
        | exact hInv)

theorem counterInv_eatWikiText {cfg style} {w : World} {s : MwState} {st : MStream}
    {out : StepRes}
    (hInv : CounterInv s)
    (h : eatWikiText cfg style w s st = some out) : CounterInv out.2.2.1 := by
  unfold eatWikiText at h
  repeat' split at h
  all_goals first
    | exact counterInv_wikiMain hInv h
    | exact counterInv_wikiSol hInv h
    | (cases h; exact counterInv_chainTo0 ⟨rfl, rfl, rfl⟩ hInv)

theorem counterInv_eatSectionHeader {cfg count} {w : World} {s : MwState}
    {st : MStream} {out : StepRes}
    (h0 : tkT s.tokenize = 0 ∧ tkL s.tokenize = 0 ∧ tkE s.tokenize = 0)
    (hInv : CounterInv s)
    (h : eatSectionHeader cfg count w s st = some out) : CounterInv out.2.2.1 := by
  unfold eatSectionHeader at h
  try dsimp only at h
  repeat' split at h
  all_goals first
    | exact counterInv_eatWikiText hInv h
    | (cases h; first
        | exact hInv
        | exact counterInv_setTk (h0.1.symm) (h0.2.1.symm) (h0.2.2.symm) hInv)

theorem counterInv_inVariable {cfg} {w : World} {s : MwState} {st : MStream}
    {out : StepRes}
    (h0 : tkT s.tokenize = 0 ∧ tkL s.tokenize = 0 ∧ tkE s.tokenize = 0)
    (hInv : CounterInv s)
    (h : inVariable cfg w s st = some out) : CounterInv out.2.2.1 := by
  unfold inVariable at h
  try dsimp only at h
  repeat' split at h
  all_goals first
    | exact Option.noConfusion h
    | (cases h; first
        | exact hInv
        | exact counterInv_setTk (h0.1.symm) (h0.2.1.symm) (h0.2.2.symm) hInv
        | (refine counterInv_pop0 ?_ ?_ (by assumption); exacts [h0, hInv])
        | exact counterInv_dup0 h0 hInv)

theorem counterInv_inVariableDefault {cfg} {w : World} {s : MwState} {st : MStream}
    {out : StepRes}
    (h0 : tkT s.tokenize = 0 ∧ tkL s.tokenize = 0 ∧ tkE s.tokenize = 0)
    (hInv : CounterInv s)
    (h : inVariableDefault cfg w s st = some out) : CounterInv out.2.2.1 := by
  unfold inVariableDefault at h
  try dsimp only at h
  repeat' split at h
  all_goals first
    | exact Option.noConfusion h
    | exact counterInv_eatWikiText hInv h
    | (cases h; first
        | exact hInv
        | (refine counterInv_pop0 ?_ ?_ (by assumption); exacts [h0, hInv]))

theorem counterInv_inParserFunctionName {cfg} {w : World} {s : MwState}
    {st : MStream} {out : StepRes}
    (h0 : tkT s.tokenize = 0 ∧ tkL s.tokenize = 0 ∧ tkE s.tokenize = 1)
    (hInv : CounterInv s)
    (h : inParserFunctionName cfg w s st = some out) : CounterInv out.2.2.1 := by
  unfold inParserFunctionName at h
  try dsimp only at h
  repeat' split at h
  all_goals first
    | exact Option.noConfusion h
    | exact counterInv_eatWikiText hInv h
    | (cases h; first
        | exact hInv
        | exact counterInv_setTk (h0.1.symm) (h0.2.1.symm) (h0.2.2.symm) hInv
        | exact counterInv_popE h0 hInv (by assumption))

theorem counterInv_inParserFunctionArguments {cfg} {w : World} {s : MwState}
    {st : MStream} {out : StepRes}
    (h0 : tkT s.tokenize = 0 ∧ tkL s.tokenize = 0 ∧ tkE s.tokenize = 1)
    (hInv : CounterInv s)
    (h : inParserFunctionArguments cfg w s st = some out) : CounterInv out.2.2.1 := by
  unfold inParserFunctionArguments at h
  try dsimp only at h
  repeat' split at h
  all_goals first
    | exact Option.noConfusion h
    | exact counterInv_eatWikiText hInv h
    | (cases h; first
        | exact hInv
        | exact counterInv_popE h0 hInv (by assumption))

theorem counterInv_eatTemplatePageName {cfg haveAte} {w : World} {s : MwState}
    {st : MStream} {out : StepRes}
    (h0 : tkT s.tokenize = 1 ∧ tkL s.tokenize = 0 ∧ tkE s.tokenize = 0)
    (hInv : CounterInv s)
    (h : eatTemplatePageName cfg haveAte w s st = some out) : CounterInv out.2.2.1 := by
  unfold eatTemplatePageName at h
  try dsimp only at h
  repeat' split at h
  all_goals first
    | exact Option.noConfusion h
    | exact counterInv_eatWikiText hInv h
    | (cases h; first
        | exact hInv
        | exact counterInv_setTk (h0.1.symm) (h0.2.1.symm) (h0.2.2.symm) hInv
        | exact counterInv_popT h0 hInv (by assumption)
        | exact counterInv_popPreT h0 hInv (by assumption))

theorem counterInv_eatTemplateArgument {cfg expectArgName} {w : World}
    {s : MwState} {st : MStream} {out : StepRes}
    (h0 : tkT s.tokenize = 1 ∧ tkL s.tokenize = 0 ∧ tkE s.tokenize = 0)
    (hInv : CounterInv s)
    (h : eatTemplateArgument cfg expectArgName w s st = some out) :
    CounterInv out.2.2.1 := by
  unfold eatTemplateArgument at h
  try dsimp only at h
  repeat' split at h
  all_goals first
    | exact Option.noConfusion h
    | exact counterInv_eatWikiText hInv h
    | (cases h; first
        | exact hInv
        | exact counterInv_setTk (h0.1.symm) (h0.2.1.symm) (h0.2.2.symm) hInv
        | exact counterInv_popT h0 hInv (by assumption))

theorem counterInv_eatExternalLinkProtocol {chars} {w : World} {s : MwState}
    {st : MStream} {out : StepRes}
    (h0 : tkT s.tokenize = 0 ∧ tkL s.tokenize = 1 ∧ tkE s.tokenize = 0)
    (hInv : CounterInv s)
    (h : eatExternalLinkProtocol chars w s st = some out) : CounterInv out.2.2.1 := by
  unfold eatExternalLinkProtocol at h
  try dsimp only at h
  repeat' split at h
  all_goals first
    | exact Option.noConfusion h
    | (cases h; first
        | exact counterInv_setTk (h0.1.symm) (h0.2.1.symm) (h0.2.2.symm) hInv
        | exact counterInv_popPreL h0 hInv (by assumption))

theorem counterInv_inExternalLink {cfg} {w : World} {s : MwState} {st : MStream}
    {out : StepRes}
    (h0 : tkT s.tokenize = 0 ∧ tkL s.tokenize = 1 ∧ tkE s.tokenize = 0)
    (hInv : CounterInv s)
    (h : inExternalLink cfg w s st = some out) : CounterInv out.2.2.1 := by
  unfold inExternalLink at h
  try dsimp only at h
  repeat' split at h
  all_goals first
    | exact Option.noConfusion h
    | exact counterInv_eatWikiText hInv h
    | (cases h; first
        | exact hInv
        | exact counterInv_setTk (h0.1.symm) (h0.2.1.symm) (h0.2.2.symm) hInv
        | exact counterInv_popL h0 hInv (by assumption)
        | exact counterInv_popPreL h0 hInv (by assumption))

theorem counterInv_inExternalLinkText {cfg} {w : World} {s : MwState} {st : MStream}
    {out : StepRes}
    (h0 : tkT s.tokenize = 0 ∧ tkL s.tokenize = 1 ∧ tkE s.tokenize = 0)
    (hInv : CounterInv s)
    (h : inExternalLinkText cfg w s st = some out) : CounterInv out.2.2.1 := by
  unfold inExternalLinkText at h
  try dsimp only at h
  repeat' split at h
  all_goals first
    | exact Option.noConfusion h
    | exact counterInv_eatWikiText hInv h
    | (cases h; first
        | exact hInv
        | exact counterInv_popL h0 hInv (by assumption)
        | exact counterInv_popPreL h0 hInv (by assumption))

theorem counterInv_inLink {cfg} {w : World} {s : MwState} {st : MStream}
    {out : StepRes}
    (h0 : tkT s.tokenize = 0 ∧ tkL s.tokenize = 1 ∧ tkE s.tokenize = 0)
    (hInv : CounterInv s)
    (h : inLink cfg w s st = some out) : CounterInv out.2.2.1 := by
  unfold inLink at h
  try dsimp only at h
  repeat' split at h
  all_goals first
    | exact Option.noConfusion h
    | exact counterInv_eatWikiText hInv h
    | (cases h; first
        | exact hInv
        | exact counterInv_setTk (h0.1.symm) (h0.2.1.symm) (h0.2.2.symm) hInv
        | exact counterInv_popL h0 hInv (by assumption)
        | exact counterInv_popPreL h0 hInv (by assumption))

theorem counterInv_inLinkToSection {cfg} {w : World} {s : MwState} {st : MStream}
    {out : StepRes}
    (h0 : tkT s.tokenize = 0 ∧ tkL s.tokenize = 1 ∧ tkE s.tokenize = 0)
    (hInv : CounterInv s)
    (h : inLinkToSection cfg w s st = some out) : CounterInv out.2.2.1 := by
  unfold inLinkToSection at h
  try dsimp only at h
  repeat' split at h
  all_goals first
    | exact Option.noConfusion h
    | exact counterInv_eatWikiText hInv h
    | (cases h; first
        | exact hInv
        | exact counterInv_setTk (h0.1.symm) (h0.2.1.symm) (h0.2.2.symm) hInv
        | exact counterInv_popL h0 hInv (by assumption)
        | exact counterInv_popPreL h0 hInv (by assumption))

theorem counterInv_eatLinkText {cfg cell} {w : World} {s : MwState} {st : MStream}
    {out : StepRes}
    (h0 : tkT s.tokenize = 0 ∧ tkL s.tokenize = 1 ∧ tkE s.tokenize = 0)
    (hInv : CounterInv s)
    (h : eatLinkText cfg cell w s st = some out) : CounterInv out.2.2.1 := by
  unfold eatLinkText at h
  try dsimp only at h
  repeat' split at h
  all_goals first
    | exact Option.noConfusion h
    | exact counterInv_eatWikiText hInv h
    | (cases h; first
        | exact hInv
        | exact counterInv_popL h0 hInv (by assumption))

theorem counterInv_eatTagName {chars isCloseTag isHtmlTag} {w : World}
    {s : MwState} {st : MStream} {out : StepRes}
    (h0 : tkT s.tokenize = 0 ∧ tkL s.tokenize = 0 ∧ tkE s.tokenize = 0)
    (hInv : CounterInv s)
    (h : eatTagName chars isCloseTag isHtmlTag w s st = some out) :
    CounterInv out.2.2.1 := by
  unfold eatTagName at h
  try dsimp only at h
  repeat' split at h
  all_goals
    (cases h; exact counterInv_setTk (h0.1.symm) (h0.2.1.symm) (h0.2.2.symm) hInv)

theorem counterInv_eatHtmlTagAttribute {cfg name} {w : World} {s : MwState}
    {st : MStream} {out : StepRes}
    (h0 : tkT s.tokenize = 0 ∧ tkL s.tokenize = 0 ∧ tkE s.tokenize = 0)
    (hInv : CounterInv s)
    (h : eatHtmlTagAttribute cfg name w s st = some out) : CounterInv out.2.2.1 := by
  unfold eatHtmlTagAttribute at h
  try dsimp only at h
  rw [apply_ite popTk] at h
  split_ifs at h
  repeat' split at h
  all_goals first
    | exact Option.noConfusion h
    | exact counterInv_eatWikiText hInv h
    | (cases h; first
        | exact hInv
        | (refine counterInv_pop0 ?_ ?_ (by assumption); exacts [h0, hInv]))

theorem counterInv_eatExtTagAttribute {cfg name} {w : World} {s : MwState}
    {st : MStream} {out : StepRes}
    (h0 : tkT s.tokenize = 0 ∧ tkL s.tokenize = 0 ∧ tkE s.tokenize = 0)
    (hInv : CounterInv s)
    (h : eatExtTagAttribute cfg name w s st = some out) : CounterInv out.2.2.1 := by
  unfold eatExtTagAttribute at h
  try dsimp only at h
  repeat' split at h
  all_goals first
    | exact Option.noConfusion h
    | exact counterInv_eatWikiText hInv h
    | (cases h; first
        | exact hInv
        | exact counterInv_setTk (h0.1.symm) (h0.2.1.symm) (h0.2.2.symm) hInv
        | (refine counterInv_pop0 ?_ ?_ (by assumption); exacts [h0, hInv]))

theorem counterInv_eatExtCloseTag {name} {w : World} {s : MwState} {st : MStream}
    {out : StepRes}
    (h0 : tkT s.tokenize = 0 ∧ tkL s.tokenize = 0 ∧ tkE s.tokenize = 0)
    (hInv : CounterInv s)
    (h : eatExtCloseTag name w s st = some out) : CounterInv out.2.2.1 := by
  unfold eatExtCloseTag at h
  cases h
  exact counterInv_setTk (h0.1.symm) (h0.2.1.symm) (h0.2.2.symm) hInv

theorem counterInv_eatExtTokens {origString} {w : World} {s : MwState}
    {st : MStream} {out : StepRes}
    (h0 : tkT s.tokenize = 0 ∧ tkL s.tokenize = 0 ∧ tkE s.tokenize = 0)
    (hInv : CounterInv s)
    (h : eatExtTokens origString w s st = some out) : CounterInv out.2.2.1 := by
  unfold eatExtTokens at h
  try dsimp only at h
  repeat' split at h
  all_goals first
    | exact Option.noConfusion h
    | (cases h; first
        | exact hInv
        | (refine counterInv_pop0 ?_ ?_ (by assumption); exacts [h0, hInv]))

theorem counterInv_eatExtTagArea {name} {w : World} {s : MwState} {st : MStream}
    {out : StepRes}
    (h0 : tkT s.tokenize = 0 ∧ tkL s.tokenize = 0 ∧ tkE s.tokenize = 0)
    (hInv : CounterInv s)
    (h : eatExtTagArea name w s st = some out) : CounterInv out.2.2.1 := by
  unfold eatExtTagArea at h
  try dsimp only at h
  repeat' split at h
  all_goals first
    | (refine counterInv_eatExtCloseTag ⟨?_, ?_, ?_⟩
        (counterInv_retok hInv ?_ ?_ ?_ ?_ ?_ ?_ ?_) h <;>
        first
          | rfl
          | exact h0.1.symm
          | exact h0.2.1.symm
          | exact h0.2.2.symm)
    | (refine counterInv_eatExtTokens ⟨?_, ?_, ?_⟩
        (counterInv_chainTo0 ⟨?_, ?_, ?_⟩ hInv) h <;> rfl)

theorem counterInv_eatStartTable {w : World} {s : MwState} {st : MStream}
    {out : StepRes}
    (h0 : tkT s.tokenize = 0 ∧ tkL s.tokenize = 0 ∧ tkE s.tokenize = 0)
    (hInv : CounterInv s)
    (h : eatStartTable w s st = some out) : CounterInv out.2.2.1 := by
  unfold eatStartTable at h
  cases h
  exact counterInv_setTk (h0.1.symm) (h0.2.1.symm) (h0.2.2.symm) hInv

theorem counterInv_inTable {cfg} {w : World} {s : MwState} {st : MStream}
    {out : StepRes}
    (h0 : tkT s.tokenize = 0 ∧ tkL s.tokenize = 0 ∧ tkE s.tokenize = 0)
    (hInv : CounterInv s)
    (h : inTable cfg w s st = some out) : CounterInv out.2.2.1 := by
  unfold inTable at h
  try dsimp only at h
  repeat' split at h
  all_goals first
    | exact Option.noConfusion h
    | exact counterInv_eatWikiText hInv h
    | (cases h; first
        | exact hInv
        | exact counterInv_setTk (h0.1.symm) (h0.2.1.symm) (h0.2.2.symm) hInv
        | (refine counterInv_pop0 ?_ ?_ (by assumption); exacts [h0, hInv]))

theorem counterInv_inTableDefinition {cfg} {w : World} {s : MwState} {st : MStream}
    {out : StepRes}
    (h0 : tkT s.tokenize = 0 ∧ tkL s.tokenize = 0 ∧ tkE s.tokenize = 0)
    (hInv : CounterInv s)
    (h : inTableDefinition cfg w s st = some out) : CounterInv out.2.2.1 := by
  unfold inTableDefinition at h
  split at h
  · refine counterInv_inTable ⟨?_, ?_, ?_⟩ (counterInv_setTk ?_ ?_ ?_ hInv) h <;>
      first
        | rfl
        | exact h0.1.symm
        | exact h0.2.1.symm
        | exact h0.2.2.symm
  · exact counterInv_eatWikiText hInv h

theorem counterInv_inTableCaption {cfg} {w : World} {s : MwState} {st : MStream}
    {out : StepRes}
    (h0 : tkT s.tokenize = 0 ∧ tkL s.tokenize = 0 ∧ tkE s.tokenize = 0)
    (hInv : CounterInv s)
    (h : inTableCaption cfg w s st = some out) : CounterInv out.2.2.1 := by
  unfold inTableCaption at h
  split at h
  · refine counterInv_inTable ⟨?_, ?_, ?_⟩ (counterInv_setTk ?_ ?_ ?_ hInv) h <;>
      first
        | rfl
        | exact h0.1.symm
        | exact h0.2.1.symm
        | exact h0.2.2.symm
  · exact counterInv_eatWikiText hInv h

theorem counterInv_eatTableRow {cfg isStart isHead} {w : World} {s : MwState}
    {st : MStream} {out : StepRes}
    (h0 : tkT s.tokenize = 0 ∧ tkL s.tokenize = 0 ∧ tkE s.tokenize = 0)
    (hInv : CounterInv s)
    (h : eatTableRow cfg isStart isHead w s st = some out) : CounterInv out.2.2.1 := by
  unfold eatTableRow at h
  try dsimp only at h
  repeat' split at h
  all_goals first
    | exact counterInv_eatWikiText hInv h
    | (refine counterInv_inTable ⟨?_, ?_, ?_⟩ (counterInv_setTk ?_ ?_ ?_ hInv) h <;>
        first
          | rfl
          | exact h0.1.symm
          | exact h0.2.1.symm
          | exact h0.2.2.symm)
    | (cases h; first
        | exact hInv
        | exact counterInv_setTk (h0.1.symm) (h0.2.1.symm) (h0.2.2.symm) hInv)

theorem counterInv_eatFreeExternalLinkProtocol {cfg} {w : World} {s : MwState}
    {st : MStream} {out : StepRes}
    (h0 : tkT s.tokenize = 0 ∧ tkL s.tokenize = 0 ∧ tkE s.tokenize = 0)
    (hInv : CounterInv s)
    (h : eatFreeExternalLinkProtocol cfg w s st = some out) : CounterInv out.2.2.1 := by
  unfold eatFreeExternalLinkProtocol at h
  try dsimp only at h
  repeat' split at h
  all_goals
    (cases h; exact counterInv_setTk (h0.1.symm) (h0.2.1.symm) (h0.2.2.symm) hInv)

theorem counterInv_eatFreeExternalLink {w : World} {s : MwState} {st : MStream}
    {out : StepRes}
    (h0 : tkT s.tokenize = 0 ∧ tkL s.tokenize = 0 ∧ tkE s.tokenize = 0)
    (hInv : CounterInv s)
    (h : eatFreeExternalLink w s st = some out) : CounterInv out.2.2.1 := by
  unfold eatFreeExternalLink at h
  try dsimp only at h
  repeat' split at h
  all_goals first
    | exact Option.noConfusion h
    | (cases h; first
        | exact hInv
        | (refine counterInv_pop0 ?_ ?_ (by assumption); exacts [h0, hInv]))

set_option maxHeartbeats 2000000 in
theorem counterInv_runTokenize {cfg} {w : World} {s : MwState} {st : MStream}
    {out : StepRes}
    (hInv : CounterInv s)
    (h : runTokenize cfg w s st = some out) : CounterInv out.2.2.1 := by
  unfold runTokenize at h
  split at h <;> rename_i heq
  · exact counterInv_eatWikiText hInv h
  · refine counterInv_eatBlock ⟨?_, ?_, ?_⟩ hInv h <;> (rw [heq]; try rfl)
  · refine counterInv_eatEnd ⟨?_, ?_, ?_⟩ hInv h <;> (rw [heq]; try rfl)
  · refine counterInv_eatChar ⟨?_, ?_, ?_⟩ hInv h <;> (rw [heq]; try rfl)
  · refine counterInv_eatSectionHeader ⟨?_, ?_, ?_⟩ hInv h <;> (rw [heq]; try rfl)
  · refine counterInv_inVariable ⟨?_, ?_, ?_⟩ hInv h <;> (rw [heq]; try rfl)
  · refine counterInv_inVariableDefault ⟨?_, ?_, ?_⟩ hInv h <;> (rw [heq]; try rfl)
  · refine counterInv_inParserFunctionName ⟨?_, ?_, ?_⟩ hInv h <;> (rw [heq]; try rfl)
  · refine counterInv_inParserFunctionArguments ⟨?_, ?_, ?_⟩ hInv h <;> (rw [heq]; try rfl)
  · refine counterInv_eatTemplatePageName ⟨?_, ?_, ?_⟩ hInv h <;> (rw [heq]; try rfl)
  · refine counterInv_eatTemplateArgument ⟨?_, ?_, ?_⟩ hInv h <;> (rw [heq]; try rfl)
  · refine counterInv_eatExternalLinkProtocol ⟨?_, ?_, ?_⟩ hInv h <;> (rw [heq]; try rfl)
  · refine counterInv_inExternalLink ⟨?_, ?_, ?_⟩ hInv h <;> (rw [heq]; try rfl)
  · refine counterInv_inExternalLinkText ⟨?_, ?_, ?_⟩ hInv h <;> (rw [heq]; try rfl)
  · refine counterInv_inLink ⟨?_, ?_, ?_⟩ hInv h <;> (rw [heq]; try rfl)
  · refine counterInv_inLinkToSection ⟨?_, ?_, ?_⟩ hInv h <;> (rw [heq]; try rfl)
  · refine counterInv_eatLinkText ⟨?_, ?_, ?_⟩ hInv h <;> (rw [heq]; try rfl)
  · refine counterInv_eatTagName ⟨?_, ?_, ?_⟩ hInv h <;> (rw [heq]; try rfl)
  · refine counterInv_eatHtmlTagAttribute ⟨?_, ?_, ?_⟩ hInv h <;> (rw [heq]; try rfl)
  · refine counterInv_eatExtTagAttribute ⟨?_, ?_, ?_⟩ hInv h <;> (rw [heq]; try rfl)
  · refine counterInv_eatExtTagArea ⟨?_, ?_, ?_⟩ hInv h <;> (rw [heq]; try rfl)
  · refine counterInv_eatExtCloseTag ⟨?_, ?_, ?_⟩ hInv h <;> (rw [heq]; try rfl)
  · refine counterInv_eatExtTokens ⟨?_, ?_, ?_⟩ hInv h <;> (rw [heq]; try rfl)
  · refine counterInv_eatStartTable ⟨?_, ?_, ?_⟩ hInv h <;> (rw [heq]; try rfl)
  · refine counterInv_inTableDefinition ⟨?_, ?_, ?_⟩ hInv h <;> (rw [heq]; try rfl)
  · refine counterInv_inTableCaption ⟨?_, ?_, ?_⟩ hInv h <;> (rw [heq]; try rfl)
  · refine counterInv_inTable ⟨?_, ?_, ?_⟩ hInv h <;> (rw [heq]; try rfl)
  · refine counterInv_eatTableRow ⟨?_, ?_, ?_⟩ hInv h <;> (rw [heq]; try rfl)
  · refine counterInv_eatFreeExternalLinkProtocol ⟨?_, ?_, ?_⟩ hInv h <;> (rw [heq]; try rfl)
  · refine counterInv_eatFreeExternalLink ⟨?_, ?_, ?_⟩ hInv h <;> (rw [heq]; try rfl)

theorem counterInv_tokenFinish {w : World} {s : MwState} {st : MStream}
    {readyTokens tmpTokens : List MwTok} {out : StepRes}
    (hInv : CounterInv s)
    (h : tokenFinish w s st readyTokens tmpTokens = some out) :
    CounterInv out.2.2.1 := by
  unfold tokenFinish at h
  try dsimp only at h
  repeat' split at h
  all_goals first
    | exact Option.noConfusion h
    | (cases h; exact hInv)

theorem counterInv_tokenLoop {cfg} : ∀ {fuel : Nat} {w : World} {s : MwState}
    {st : MStream} {p : Option Nat} {readyTokens tmpTokens : List MwTok}
    {out : StepRes},
    CounterInv s → tokenLoop cfg fuel w s st p readyTokens tmpTokens = some out →
    CounterInv out.2.2.1 := by
  intro fuel
  induction fuel with
  | zero => intro _ _ _ _ _ _ _ _ h; exact Option.noConfusion h
  | succ n ih =>
    intro w s st p readyTokens tmpTokens out hInv h
    unfold tokenLoop at h
    split at h
    · exact Option.noConfusion h
    · rename_i style w1 s1 st1 heq
      have hInv1 : CounterInv s1 := counterInv_runTokenize hInv heq
      try dsimp only at h
      repeat' split at h
      all_goals first
        | exact Option.noConfusion h
        | (cases h; exact hInv1)
        | exact counterInv_tokenFinish hInv1 h
        | exact ih hInv1 h

theorem counterInv_mediawikiToken {cfg} {fuel : Nat} {w : World} {s : MwState}
    {st : MStream} {out : StepRes}
    (hInv : CounterInv s)
    (h : mediawikiToken cfg fuel w s st = some out) : CounterInv out.2.2.1 := by
  unfold mediawikiToken at h
  try dsimp only at h
  repeat' split at h
  all_goals first
    | (cases h; exact hInv)
    | exact counterInv_tokenLoop hInv h

/-- Every reachable state satisfies the counter invariant. -/
theorem counterInv_reach {cfg : Cfg} {s : MwState} (h : Reach cfg s) :
    CounterInv s := by
  induction h with
  | start => exact ⟨rfl, rfl, rfl⟩
  | step _ hstep ih => exact counterInv_mediawikiToken ih hstep

/-- C2: for every sequence of `mediawiki.token` calls starting from the
initial state produced by `startState`, the nesting counters `nTemplate`,
`nLink` and `nExt` are greater than or equal to `0` after every call; no call
sequence drives any of the three counters negative. -/
theorem claim_C2_counters_nonneg {cfg : Cfg} {s : MwState} (h : Reach cfg s) :
    0 ≤ s.nTemplate ∧ 0 ≤ s.nLink ∧ 0 ≤ s.nExt := by
  obtain ⟨iT, iL, iE⟩ := counterInv_reach h
  exact ⟨iT ▸ Int.natCast_nonneg _, iL ▸ Int.natCast_nonneg _,
    iE ▸ Int.natCast_nonneg _⟩

/-- Witness for C2 at the start state of the sample configuration. -/
theorem claim_C2_counters_nonneg_witness :
    0 ≤ startState.nTemplate ∧ 0 ≤ startState.nLink ∧ 0 ≤ startState.nExt :=
  claim_C2_counters_nonneg (@Reach.start sampleCfg)

end MwMode

namespace MwMode

/-! # Claim C5: ground-prefix buckets -/

/-- C5 (amended): the ground prefix of `makeLocalStyle` distinguishes four
ordinal buckets per template/extension dimension (0, 1, 2, 3-or-more) and two
per link dimension (0, 1-or-more): two states whose counters agree bucket-wise
produce the same styled output. -/
theorem claim_C5_ground_buckets {s s' : MwState} (style : String)
    (hT : s.nTemplate = s'.nTemplate ∨ (3 ≤ s.nTemplate ∧ 3 ≤ s'.nTemplate))
    (hE : s.nExt = s'.nExt ∨ (3 ≤ s.nExt ∧ 3 ≤ s'.nExt))
    (hL : (0 < s.nLink) = (0 < s'.nLink)) :
    (makeLocalStyle style s none).1 = (makeLocalStyle style s' none).1 := by
  have hg : groundOf s = groundOf s' := by
    unfold groundOf
    have e1 : (if s.nTemplate = 0 then "" else if s.nTemplate = 1 then "-template"
        else if s.nTemplate = 2 then "-template2" else "-template3") =
        (if s'.nTemplate = 0 then "" else if s'.nTemplate = 1 then "-template"
        else if s'.nTemplate = 2 then "-template2" else "-template3") := by
      rcases hT with h | ⟨h1, h2⟩
      · rw [h]
      · rw [if_neg (by omega), if_neg (by omega), if_neg (by omega),
          if_neg (by omega), if_neg (by omega), if_neg (by omega)]
    have e2 : (if s.nExt = 0 then "" else if s.nExt = 1 then "-ext"
        else if s.nExt = 2 then "-ext2" else "-ext3") =
        (if s'.nExt = 0 then "" else if s'.nExt = 1 then "-ext"
        else if s'.nExt = 2 then "-ext2" else "-ext3") := by
      rcases hE with h | ⟨h1, h2⟩
      · rw [h]
      · rw [if_neg (by omega), if_neg (by omega), if_neg (by omega),
          if_neg (by omega), if_neg (by omega), if_neg (by omega)]
    rw [e1, e2]; simp only [hL]
  simp only [makeLocalStyle, hg]

/-- Witness for C5: template depths 3 and 5 produce the same style. -/
theorem claim_C5_ground_buckets_witness :
    (makeLocalStyle "x" { startState with nTemplate := 3 } none).1 =
    (makeLocalStyle "x" { startState with nTemplate := 5 } none).1 :=
  claim_C5_ground_buckets "x" (Or.inr (by decide)) (Or.inl rfl) (by decide)

/-- Counterexample for C5 as stated: template depth 2 and depth 3 produce
different ground prefixes (`mw-template2-ground` vs `mw-template3-ground`), so
depth 2 is a bucket of its own rather than part of a "2-or-more" bucket. -/
theorem claim_C5_cx :
    (makeLocalStyle "x" { startState with nTemplate := 2 } none).1 =
      "mw-template2-ground x" ∧
    (makeLocalStyle "x" { startState with nTemplate := 3 } none).1 =
      "mw-template3-ground x" ∧
    ("mw-template2-ground x" : String) ≠ "mw-template3-ground x" :=
  ⟨rfl, rfl, by decide⟩

/-! # Claim C9: the rollback snapshot -/

/-- C9 (amended): whenever `prepareItalicForCorrection` changes the recorded
data at all, it (re-)snapshots `wasBold`/`wasItalic` from the current
`isBold`/`isItalic`; the snapshot is therefore taken at every recording, not
only at the first one of the line. -/
theorem claim_C9_snapshot_every_record (w : World) (st : MStream)
    (h : prepareItalicForCorrection w st ≠ w) :
    (prepareItalicForCorrection w st).wasBold = w.isBold ∧
    (prepareItalicForCorrection w st).wasItalic = w.isItalic := by
  unfold prepareItalicForCorrection at h ⊢
  dsimp only at h ⊢
  split_ifs at h ⊢ <;> first | exact absurd rfl h | exact ⟨rfl, rfl⟩

/-- Witness for C9 at a concrete recording call. -/
theorem claim_C9_snapshot_every_record_witness :
    prepareItalicForCorrection freshWorld ⟨['a', 'b', ' ', 'c', '\'', '\''], 6⟩ ≠
      freshWorld ∧
    (prepareItalicForCorrection freshWorld
        ⟨['a', 'b', ' ', 'c', '\'', '\''], 6⟩).wasBold = freshWorld.isBold :=
  ⟨by decide,
    (claim_C9_snapshot_every_record freshWorld
      ⟨['a', 'b', ' ', 'c', '\'', '\''], 6⟩ (by decide)).1⟩

/-- Counterexample for C9 as stated: on the line `ab''' c'''d` the first
candidate (recorded at the first `'''`) saves `wasBold = false`, but recording
the second candidate (at the second `'''`) re-snapshots and leaves
`wasBold = true` — the saved values do not stay fixed for the rest of the
line. -/
theorem claim_C9_cx :
    (runInnerSteps sampleCfg 2 freshWorld startState ⟨lineApoConflict, 0⟩).map
        (fun r => (r.1.wasBold, r.1.firstMultiLetterWord, r.1.firstSingleLetterWord)) =
      some (false, some 5, none) ∧
    (runInnerSteps sampleCfg 4 freshWorld startState ⟨lineApoConflict, 0⟩).map
        (fun r => (r.1.wasBold, r.1.firstMultiLetterWord, r.1.firstSingleLetterWord)) =
      some (true, some 5, some 10) := by
  exact ⟨rfl, rfl⟩

/-! # Claim C4: the unterminated template -/

/-- C4 (amended): tokenizing the unterminated template line `{{foo|bar`
produces no fold range from the fold-range resolver at any anchor, but the
`nTemplate` counter is still `1` (not `0`) after the line-end recovery of the
following line, because `eatTemplateArgument` (installed by the `|`) has no
start-of-line recovery. -/
theorem claim_C4_unterminated_template :
    (∀ i : Nat, foldable (lineSpans sampleCfg lineTplArg) i = none) ∧
    (tokenizeDoc sampleCfg freshWorld startState [lineTplArg, lineX]).map
      (fun r => r.2.1.nTemplate) = some 1 := by
  constructor
  · intro i
    rcases Nat.lt_or_ge i 4 with h | h
    · interval_cases i <;> rfl
    · unfold foldable
      rw [List.get?_eq_none.mpr
        (by rw [show (lineSpans sampleCfg lineTplArg).length = 4 from rfl]; omega)]
  · rfl

/-- Witness for C4 at a concrete anchor. -/
theorem claim_C4_unterminated_template_witness :
    foldable (lineSpans sampleCfg lineTplArg) 2 = none :=
  claim_C4_unterminated_template.1 2

/-- Counterexample for C4 as stated: after the line-end recovery the counter
is `1`, not `0`. -/
theorem claim_C4_cx :
    (tokenizeDoc sampleCfg freshWorld startState [lineTplArg, lineX]).map
      (fun r => r.2.1.nTemplate) ≠ some 0 := by
  intro h
  exact absurd ((Option.some.injEq _ _).mp
    ((claim_C4_unterminated_template.2.symm.trans h))) (by decide)

/-! # Claim C7: the template fold range -/


/-- C7: for `{{t|a=1|b=2}}` anchored at any component strictly inside the
braces the fold range runs from the end of the first `|` (position 4) to the
start of the closing `}}` (position 11); anchored at the brackets themselves
there is no range, and a template with no argument delimiter (`{{t}}`) folds
nowhere. -/
theorem claim_C7_fold_range :
    (∀ i : Nat, 1 ≤ i → i ≤ 7 →
      foldable (lineSpans sampleCfg lineTplDemo) i = some (4, 11)) ∧
    foldable (lineSpans sampleCfg lineTplDemo) 0 = none ∧
    (∀ j : Nat, foldable (lineSpans sampleCfg lineTplNoArg) j = none) := by
  refine ⟨?_, rfl, ?_⟩
  · intro i h1 h7
    interval_cases i <;> rfl
  · intro j
    rcases Nat.lt_or_ge j 3 with h | h
    · interval_cases j <;> rfl
    · unfold foldable
      rw [List.get?_eq_none.mpr
        (by rw [show (lineSpans sampleCfg lineTplNoArg).length = 3 from rfl]; omega)]

/-- Witness for C7 at a concrete inner anchor. -/
theorem claim_C7_fold_range_witness :
    foldable (lineSpans sampleCfg lineTplDemo) 3 = some (4, 11) :=
  claim_C7_fold_range.1 3 (by decide) (by decide)

/-! # Claim C3: copyState is not a snapshot -/

/-- C3: the `eatLinkText` closure installed by `[[a|` captures `linkIsBold`
mutably; `copyState` copies the `state.tokenize` reference, so a state and its
copy share the closure.  Tokenizing `'''x]]` from the original first and then
from the copy yields a different token sequence for the copy (the shared bold
flag was left toggled), refuting the snapshot property. -/
theorem claim_C3_copy_not_snapshot :
    ((tokenizeLine sampleCfg freshWorld startState lineLinkOpen).bind fun r1 =>
      (tokenizeLine sampleCfg r1.1 r1.2.1 lineLinkCont).bind fun r2 =>
      (tokenizeLine sampleCfg r2.1 (mediawikiCopyState r1.2.1) lineLinkCont).map
        fun r3 => (r2.2.2.2, r3.2.2.2)) =
      some ([(3, "mw-link-ground string character"),
             (4, "mw-link-ground string mw-strong"),
             (6, "mw-link-ground squareBracket")],
            [(3, "mw-link-ground string character"),
             (4, "mw-link-ground string"),
             (6, "mw-link-ground squareBracket")]) ∧
    ([(3, "mw-link-ground string character"),
      (4, "mw-link-ground string mw-strong"),
      (6, "mw-link-ground squareBracket")] :
        List (Nat × String)) ≠
      [(3, "mw-link-ground string character"),
       (4, "mw-link-ground string"),
       (6, "mw-link-ground squareBracket")] := by
  exact ⟨rfl, by decide⟩

theorem rest_at (a b : List Char) : MStream.rest ⟨a ++ b, a.length⟩ = b := by
  simp [MStream.rest]

theorem rest_at_add (a b : List Char) (n : Nat) :
    MStream.rest ⟨a ++ b, a.length + n⟩ = b.drop n := by
  simp [MStream.rest, List.drop_append_eq_append_drop]

theorem peek_eq_head_rest (st : MStream) : st.peekCh = st.rest.head? := by
  cases st with
  | mk str pos =>
    simp only [MStream.peekCh, MStream.rest]
    induction str generalizing pos with
    | nil => simp
    | cons c t ih =>
      cases pos with
      | zero => simp
      | succ p => simpa using ih p

theorem countWhile_head_false {p : Char → Bool} {l : List Char}
    (h : ∀ c, l.head? = some c → p c = false) : countWhile p l = 0 := by
  cases l with
  | nil => rfl
  | cons c t =>
    simp only [countWhile, List.takeWhile]
    rw [h c rfl]
    rfl

theorem countWhile_append_all {p : Char → Bool} {a b : List Char}
    (ha : ∀ c ∈ a, p c = true)
    (hb : ∀ c, b.head? = some c → p c = false) :
    countWhile p (a ++ b) = a.length := by
  induction a with
  | nil => simpa using countWhile_head_false hb
  | cons c t ih =>
    simp only [List.cons_append, countWhile, List.takeWhile,
      ha c (by simp)]
    have := ih (fun d hd => ha d (by simp [hd]))
    simp only [countWhile] at this
    simp [this]

/-- C10: reading `</name>` where `name` is a permitted (but not extension)
HTML tag different from the top of the open-tag stack pops the stack anyway,
consumes one extra character so the `>` is included, and returns the raw
error style. -/
theorem claim_C10_mismatched_close (cfg : Cfg) (style : String) (w : World)
    (s : MwState) (pre name rest : List Char) (t : String) (ts : List String)
    (hpre : pre ≠ [])
    (hname : name ≠ [])
    (hnameCh : ∀ c ∈ name, tagNameChar c = true)
    (hrest : ∀ c, rest.head? = some c → tagNameChar c = false)
    (hcomment : ['!', '-', '-'].isPrefixOf rest = false)
    (htag : cfg.tags.contains (String.mk (name.map Char.toLower)) = false)
    (hperm : permittedHtmlTags.contains (String.mk (name.map Char.toLower)) = true)
    (hstk : s.inHtmlTag = t :: ts)
    (hmm : t ≠ String.mk (name.map Char.toLower)) :
    eatWikiText cfg style w s ⟨pre ++ '<' :: '/' :: (name ++ rest), pre.length⟩ =
      some (tagError, w, { s with inHtmlTag := ts },
        ⟨pre ++ '<' :: '/' :: (name ++ rest), pre.length + 2 + name.length + 1⟩) := by
  have hlen : pre.length ≠ 0 := fun h => hpre (List.length_eq_zero.mp h)
  have hsol : MStream.sol ⟨pre ++ '<' :: '/' :: (name ++ rest), pre.length⟩ = false := by
    simp [MStream.sol, hlen]
  have hpeek : MStream.peekCh ⟨pre ++ '<' :: '/' :: (name ++ rest), pre.length⟩ =
      some '<' := by
    rw [peek_eq_head_rest, rest_at]
    rfl
  have hpeek1 : MStream.peekCh ⟨pre ++ '<' :: '/' :: (name ++ rest), pre.length + 1⟩ =
      some '/' := by
    rw [peek_eq_head_rest, rest_at_add]
    rfl
  have hrest2 : MStream.rest ⟨pre ++ '<' :: '/' :: (name ++ rest), pre.length + 2⟩ =
      name ++ rest := by
    rw [rest_at_add]
    rfl
  have htn : reTagName (name ++ rest) = some name.length := by
    unfold reTagName plusLen
    rw [countWhile_append_all hnameCh hrest]
    rw [if_neg (fun h => hname (List.length_eq_zero.mp h))]
  have hrest3 : MStream.rest
      ⟨pre ++ '<' :: '/' :: (name ++ rest), pre.length + (2 + name.length)⟩ = rest := by
    rw [rest_at_add]
    rw [show (2 : Nat) + name.length = name.length + 2 from by omega]
    simp [List.drop_succ_cons, List.drop_left]
  unfold eatWikiText
  rw [hsol]
  have hnext : MStream.nextCh ⟨pre ++ '<' :: '/' :: (name ++ rest), pre.length⟩ =
      (some '<', ⟨pre ++ '<' :: '/' :: (name ++ rest), pre.length + 1⟩) := by
    simp [MStream.nextCh, hpeek, MStream.adv]
  rw [hnext]
  show wtLt cfg style w s ⟨pre ++ '<' :: '/' :: (name ++ rest), pre.length + 1⟩ = _
  unfold wtLt
  dsimp only
  rw [hpeek1]
  simp only [ite_true, MStream.adv, Nat.add_assoc, Nat.reduceAdd, hrest2, htn,
    Option.getD_some]
  simp only [hrest3, List.take_left, hcomment, Bool.false_eq_true, if_false,
    htag, hperm, hstk, List.head?_cons, ne_eq, Option.some.injEq, hmm,
    not_false_eq_true, ite_true, ite_false]
  rfl


theorem countWhile_head_false2 {p : Char → Bool} {l : List Char}
    (h : ∀ c, l.head? = some c → p c = false) : countWhile p l = 0 := by
  cases l with
  | nil => rfl
  | cons c t =>
    simp only [countWhile, List.takeWhile]
    rw [h c rfl]
    rfl

theorem countWhile_append_all2 {p : Char → Bool} {a b : List Char}
    (ha : ∀ c ∈ a, p c = true)
    (hb : ∀ c, b.head? = some c → p c = false) :
    countWhile p (a ++ b) = a.length := by
  induction a with
  | nil => simpa using countWhile_head_false2 hb
  | cons c t ih =>
    simp only [List.cons_append, countWhile, List.takeWhile,
      ha c (by simp)]
    have := ih (fun d hd => ha d (by simp [hd]))
    simp only [countWhile] at this
    simp [this]

theorem countWhile_replicate_append {p : Char → Bool} {c : Char} {n : Nat}
    {b : List Char} (hc : p c = true)
    (hb : ∀ d, b.head? = some d → p d = false) :
    countWhile p (List.replicate n c ++ b) = n := by
  have := countWhile_append_all2 (a := List.replicate n c) (b := b)
    (fun d hd => by rw [List.eq_of_mem_replicate hd]; exact hc) hb
  simpa using this

theorem head?_replicate_append {c : Char} {n : Nat} {b : List Char} (h : 1 ≤ n) :
    (List.replicate n c ++ b).head? = some c := by
  cases n with
  | zero => omega
  | succ m => simp [List.replicate_succ]

theorem drop1_replicate_append {c : Char} {n : Nat} {b : List Char} (h : 1 ≤ n) :
    (List.replicate n c ++ b).drop 1 = List.replicate (n - 1) c ++ b := by
  cases n with
  | zero => omega
  | succ m => simp [List.replicate_succ]

/-- C8 (amended): a run of `n ≥ 3` tildes (followed by a non-tilde) produces
the signature token and consumes `min n 5` characters: the whole run for
`n = 3, 4, 5`, and exactly `5` for longer runs (the excess remains on the
stream).  A run of `2` tildes does not produce a signature (see the
counterexample). -/
theorem claim_C8_signature (cfg : Cfg) (style : String) (w : World) (s : MwState)
    (pre rest : List Char) (n : Nat)
    (hpre : pre ≠ []) (h3 : 3 ≤ n)
    (hrest : ∀ c, rest.head? = some c → (c == '~') = false) :
    eatWikiText cfg style w s ⟨pre ++ (List.replicate n '~' ++ rest), pre.length⟩ =
      some (tagSignature, w, s,
        ⟨pre ++ (List.replicate n '~' ++ rest), pre.length + min n 5⟩) := by
  have hlen : pre.length ≠ 0 := fun h => hpre (List.length_eq_zero.mp h)
  have hsol : MStream.sol ⟨pre ++ (List.replicate n '~' ++ rest), pre.length⟩ = false := by
    simp [MStream.sol, hlen]
  have hpeek : MStream.peekCh ⟨pre ++ (List.replicate n '~' ++ rest), pre.length⟩ =
      some '~' := by
    rw [peek_eq_head_rest, rest_at]
    exact head?_replicate_append (by omega)
  have hnext : MStream.nextCh ⟨pre ++ (List.replicate n '~' ++ rest), pre.length⟩ =
      (some '~', ⟨pre ++ (List.replicate n '~' ++ rest), pre.length + 1⟩) := by
    simp [MStream.nextCh, hpeek, MStream.adv]
  have hrest1 : MStream.rest ⟨pre ++ (List.replicate n '~' ++ rest), pre.length + 1⟩ =
      List.replicate (n - 1) '~' ++ rest := by
    rw [rest_at_add]
    exact drop1_replicate_append (by omega)
  have hsig : reSig (List.replicate (n - 1) '~' ++ rest) = some (min (n - 1) 4) := by
    unfold reSig
    rw [countWhile_replicate_append rfl hrest]
    rw [if_pos (by omega)]
  unfold eatWikiText
  rw [hsol]
  rw [hnext]
  show some (wtTilde style w s ⟨pre ++ (List.replicate n '~' ++ rest), pre.length + 1⟩) = _
  unfold wtTilde
  rw [hrest1, hsig]
  simp only [MStream.adv]
  rw [show pre.length + 1 + min (n - 1) 4 = pre.length + min n 5 from by omega]

/-- Witness for C8 at a run of three tildes. -/
theorem claim_C8_signature_witness :
    eatWikiText sampleCfg "" freshWorld startState ⟨['x', '~', '~', '~', 'x'], 1⟩ =
      some (tagSignature, freshWorld, startState, ⟨['x', '~', '~', '~', 'x'], 4⟩) :=
  claim_C8_signature sampleCfg "" freshWorld startState ['x'] ['x'] 3
    (by decide) (by decide) (by decide)

/-- Counterexample for C8 as stated: a run of exactly two tildes is not
labelled as a signature — the tokenizer consumes a single `~` as plain text
(default style), not the run as `quote`. -/
theorem claim_C8_cx :
    eatWikiText sampleCfg "" freshWorld startState ⟨['x', '~', '~', 'x'], 1⟩ =
      some ("", freshWorld, startState, ⟨['x', '~', '~', 'x'], 2⟩) ∧
    ("" : String) ≠ tagSignature :=
  ⟨rfl, by decide⟩

theorem drop_replicate_append {c : Char} {k n : Nat} {b : List Char} (h : k ≤ n) :
    (List.replicate n c ++ b).drop k = List.replicate (n - k) c ++ b := by
  rw [List.drop_append_of_le_length (by simpa using h), List.drop_replicate]

theorem reBottom_apos (l : List Char) : reBottom ('\'' :: l) = none := rfl

theorem prefix2_apos {rest : List Char}
    (h : ∀ c, rest.head? = some c → (c == '\'') = false) :
    ['\'', '\''].isPrefixOf ('\'' :: rest) = false := by
  cases rest with
  | nil => rfl
  | cons d t =>
    have hd := h d rfl
    rw [beq_eq_false_iff_ne] at hd
    simp [List.isPrefixOf, beq_eq_false_iff_ne, Ne.symm hd]

theorem prefix3_apos {rest : List Char}
    (h : ∀ c, rest.head? = some c → (c == '\'') = false) :
    ['\'', '\'', '\''].isPrefixOf ('\'' :: '\'' :: rest) = false := by
  cases rest with
  | nil => rfl
  | cons d t =>
    have hd := h d rfl
    rw [beq_eq_false_iff_ne] at hd
    simp [List.isPrefixOf, beq_eq_false_iff_ne, Ne.symm hd]

theorem prefix3_apos_one {rest : List Char}
    (h : ∀ c, rest.head? = some c → (c == '\'') = false) :
    ['\'', '\'', '\''].isPrefixOf ('\'' :: rest) = false := by
  cases rest with
  | nil => rfl
  | cons d t =>
    have hd := h d rfl
    rw [beq_eq_false_iff_ne] at hd
    simp [List.isPrefixOf, beq_eq_false_iff_ne, Ne.symm hd]

/-- Witness for C10: in `x</b>` with `p` on the open-tag stack, the mismatched
close pops `p`, includes the `>` and yields the raw error style. -/
theorem claim_C10_mismatched_close_witness :
    eatWikiText sampleCfg "" freshWorld { startState with inHtmlTag := ["p"] }
      ⟨['x', '<', '/', 'b', '>'], 1⟩ =
    some (tagError, freshWorld, { startState with inHtmlTag := ([] : List String) },
      ⟨['x', '<', '/', 'b', '>'], 5⟩) :=
  claim_C10_mismatched_close sampleCfg "" freshWorld _ ['x'] ['b'] ['>'] "p" []
    (by decide) (by decide) (by decide) (by decide) (by decide) (by decide)
    (by decide) rfl (by decide)

/-- C6: on a run of `n` apostrophes followed by a non-apostrophe, (1) for
`n ≥ 6` the first token call consumes exactly the excess `n - 5` apostrophes
as plain text; (2) a remaining run of exactly 5 then toggles bold on its first
3 apostrophes; (3) the remaining run of 2 toggles italic; (4) for `n = 4` the
first call consumes exactly the first apostrophe as plain text, leaving a run
of 3 (which toggles bold by part (5)); (5) a run of exactly 3 toggles bold. -/
theorem claim_C6_apostrophe_runs :
    (∀ (cfg : Cfg) (style : String) (w : World) (s : MwState)
       (pre rest : List Char) (n : Nat), pre ≠ [] → 6 ≤ n →
       (∀ c, rest.head? = some c → (c == '\'') = false) →
       eatWikiText cfg style w s
           ⟨pre ++ (List.replicate n '\'' ++ rest), pre.length⟩ =
         some ((makeStyle w style s none).1, w, s,
           ⟨pre ++ (List.replicate n '\'' ++ rest), pre.length + (n - 5)⟩)) ∧
    (∀ (cfg : Cfg) (style : String) (w : World) (s : MwState)
       (pre rest : List Char), pre ≠ [] →
       (∀ c, rest.head? = some c → (c == '\'') = false) →
       eatWikiText cfg style w s
           ⟨pre ++ (List.replicate 5 '\'' ++ rest), pre.length⟩ =
         some ((makeLocalStyle tagApostrophesBold s none).1,
           { w with isBold := !w.isBold }, s,
           ⟨pre ++ (List.replicate 5 '\'' ++ rest), pre.length + 3⟩)) ∧
    (∀ (cfg : Cfg) (style : String) (w : World) (s : MwState)
       (pre rest : List Char), pre ≠ [] →
       (∀ c, rest.head? = some c → (c == '\'') = false) →
       eatWikiText cfg style w s
           ⟨pre ++ (List.replicate 2 '\'' ++ rest), pre.length⟩ =
         some ((makeLocalStyle tagApostrophesItalic s none).1,
           { w with isItalic := !w.isItalic }, s,
           ⟨pre ++ (List.replicate 2 '\'' ++ rest), pre.length + 2⟩)) ∧
    (∀ (cfg : Cfg) (style : String) (w : World) (s : MwState)
       (pre rest : List Char), pre ≠ [] →
       (∀ c, rest.head? = some c → (c == '\'') = false) →
       eatWikiText cfg style w s
           ⟨pre ++ (List.replicate 4 '\'' ++ rest), pre.length⟩ =
         some ((makeStyle w style s none).1, w, s,
           ⟨pre ++ (List.replicate 4 '\'' ++ rest), pre.length + 1⟩)) ∧
    (∀ (cfg : Cfg) (style : String) (w : World) (s : MwState)
       (pre rest : List Char), pre ≠ [] →
       (∀ c, rest.head? = some c → (c == '\'') = false) →
       ∃ w1 : World,
       eatWikiText cfg style w s
           ⟨pre ++ (List.replicate 3 '\'' ++ rest), pre.length⟩ =
         some ((makeLocalStyle tagApostrophesBold s none).1,
           { w1 with isBold := !w1.isBold }, s,
           ⟨pre ++ (List.replicate 3 '\'' ++ rest), pre.length + 3⟩) ∧
         w1.isBold = w.isBold ∧ w1.isItalic = w.isItalic) := by
  have entry : ∀ (cfg : Cfg) (style : String) (w : World) (s : MwState)
      (pre rest1 : List Char) (n : Nat), pre ≠ [] → 1 ≤ n →
      eatWikiText cfg style w s
          ⟨pre ++ (List.replicate n '\'' ++ rest1), pre.length⟩ =
        wtApos style w s
          ⟨pre ++ (List.replicate n '\'' ++ rest1), pre.length + 1⟩ := by
    intro cfg style w s pre rest1 n hpre hn
    have hlen : pre.length ≠ 0 := fun h => hpre (List.length_eq_zero.mp h)
    have hsol : MStream.sol ⟨pre ++ (List.replicate n '\'' ++ rest1), pre.length⟩ = false := by
      simp [MStream.sol, hlen]
    have hpeek : MStream.peekCh ⟨pre ++ (List.replicate n '\'' ++ rest1), pre.length⟩ =
        some '\'' := by
      rw [peek_eq_head_rest, rest_at]
      exact head?_replicate_append hn
    have hnext : MStream.nextCh ⟨pre ++ (List.replicate n '\'' ++ rest1), pre.length⟩ =
        (some '\'', ⟨pre ++ (List.replicate n '\'' ++ rest1), pre.length + 1⟩) := by
      simp [MStream.nextCh, hpeek, MStream.adv]
    unfold eatWikiText
    rw [hsol]
    rw [hnext]
    show some (wtApos style w s ⟨pre ++ (List.replicate n '\'' ++ rest1), pre.length + 1⟩) = _
    rfl
  have hrest1 : ∀ (pre rest1 : List Char) (n : Nat) (k : Nat), 1 + k ≤ n →
      MStream.rest ⟨pre ++ (List.replicate n '\'' ++ rest1), pre.length + (1 + k)⟩ =
        List.replicate (n - (1 + k)) '\'' ++ rest1 := by
    intro pre rest1 n k hk
    rw [rest_at_add]
    exact drop_replicate_append hk
  have reBottom_rep : ∀ {k : Nat} {b : List Char}, 1 ≤ k →
      reBottom (List.replicate k '\'' ++ b) = none := by
    intro k b hk
    cases k with
    | zero => omega
    | succ m => rw [List.replicate_succ, List.cons_append]; rfl
  refine ⟨?_, ?_, ?_, ?_, ?_⟩
  · -- n ≥ 6: the excess is consumed as plain text
    intro cfg style w s pre rest n hpre h6 hr
    rw [entry cfg style w s pre rest n hpre (by omega)]
    unfold wtApos
    have hx : MStream.rest ⟨pre ++ (List.replicate n '\'' ++ rest), pre.length + 1⟩ =
        List.replicate (n - 1) '\'' ++ rest := by
      simpa using hrest1 pre rest n 0 (by omega)
    rw [hx]
    rw [show aposSkip (List.replicate (n - 1) '\'' ++ rest) = some (n - 1 - 5) from by
      unfold aposSkip
      rw [countWhile_replicate_append rfl hr]
      rw [if_pos (by omega)]]
    unfold wtBottom
    simp only [MStream.adv]
    have hx2 : MStream.rest
        ⟨pre ++ (List.replicate n '\'' ++ rest), pre.length + 1 + (n - 1 - 5)⟩ =
        List.replicate 5 '\'' ++ rest := by
      rw [show pre.length + 1 + (n - 1 - 5) = pre.length + (1 + (n - 6)) from by omega]
      rw [hrest1 pre rest n (n - 6) (by omega)]
      rw [show n - (1 + (n - 6)) = 5 from by omega]
    rw [hx2]
    rw [reBottom_rep (by omega)]
    simp only [Option.getD_none, Nat.add_zero]
    rw [show pre.length + 1 + (n - 1 - 5) = pre.length + (n - 5) from by omega]
  · -- a run of exactly 5: bold toggle on the first three apostrophes
    intro cfg style w s pre rest hpre hr
    rw [entry cfg style w s pre rest 5 hpre (by omega)]
    unfold wtApos
    have hx : MStream.rest ⟨pre ++ (List.replicate 5 '\'' ++ rest), pre.length + 1⟩ =
        List.replicate 4 '\'' ++ rest := by
      simpa using hrest1 pre rest 5 0 (by omega)
    rw [hx]
    rw [show aposSkip (List.replicate 4 '\'' ++ rest) = none from by
      unfold aposSkip
      rw [countWhile_replicate_append rfl hr]
      rfl]
    rw [show lookBoldQuote (List.replicate 4 '\'' ++ rest) = false from rfl]
    rw [show (['\'', '\''].isPrefixOf (List.replicate 4 '\'' ++ rest)) = true from rfl]
    simp only [Bool.false_eq_true, if_false, if_true, MStream.adv]
    have hx2 : MStream.rest ⟨pre ++ (List.replicate 5 '\'' ++ rest), pre.length + 1 + 2⟩ =
        List.replicate 2 '\'' ++ rest := by
      rw [show pre.length + 1 + 2 = pre.length + (1 + 2) from by omega]
      rw [hrest1 pre rest 5 2 (by omega)]
    rw [hx2]
    rw [show (['\'', '\''].isPrefixOf (List.replicate 2 '\'' ++ rest)) = true from by
      simp [List.replicate_succ, List.isPrefixOf]]
    simp only [Bool.or_true, Bool.not_true, Bool.false_eq_true, if_false]
  · -- a run of exactly 2: italic toggle
    intro cfg style w s pre rest hpre hr
    rw [entry cfg style w s pre rest 2 hpre (by omega)]
    unfold wtApos
    have hx : MStream.rest ⟨pre ++ (List.replicate 2 '\'' ++ rest), pre.length + 1⟩ =
        List.replicate 1 '\'' ++ rest := by
      simpa using hrest1 pre rest 2 0 (by omega)
    rw [hx]
    rw [show aposSkip (List.replicate 1 '\'' ++ rest) = none from by
      unfold aposSkip
      rw [countWhile_replicate_append rfl hr]
      rfl]
    rw [show lookBoldQuote (List.replicate 1 '\'' ++ rest) = false from by
      unfold lookBoldQuote
      rw [show (List.replicate 1 '\'' ++ rest) = '\'' :: rest from by
        simp [List.replicate_succ]]
      rw [prefix3_apos_one hr]
      rfl]
    rw [show (['\'', '\''].isPrefixOf (List.replicate 1 '\'' ++ rest)) = false from by
      rw [show (List.replicate 1 '\'' ++ rest) = '\'' :: rest from by
        simp [List.replicate_succ]]
      exact prefix2_apos hr]
    have hpk : MStream.peekCh ⟨pre ++ (List.replicate 2 '\'' ++ rest), pre.length + 1⟩ =
        some '\'' := by
      rw [peek_eq_head_rest, hx]
      rfl
    rw [hpk]
    simp only [Bool.false_eq_true, if_false, if_pos rfl, MStream.adv, if_true]
  · -- a run of exactly 4: the first apostrophe alone is plain text
    intro cfg style w s pre rest hpre hr
    rw [entry cfg style w s pre rest 4 hpre (by omega)]
    unfold wtApos
    have hx : MStream.rest ⟨pre ++ (List.replicate 4 '\'' ++ rest), pre.length + 1⟩ =
        List.replicate 3 '\'' ++ rest := by
      simpa using hrest1 pre rest 4 0 (by omega)
    rw [hx]
    rw [show aposSkip (List.replicate 3 '\'' ++ rest) = none from by
      unfold aposSkip
      rw [countWhile_replicate_append rfl hr]
      rfl]
    rw [show lookBoldQuote (List.replicate 3 '\'' ++ rest) = true from by
      unfold lookBoldQuote
      rw [show (List.replicate 3 '\'' ++ rest).get? 3 = rest.head? from by
        simp only [List.replicate_succ, List.nil_append, List.cons_append,
          List.get?_cons_succ]
        cases rest <;> rfl]
      cases rest with
      | nil => rfl
      | cons d t =>
        have hd := hr d rfl
        rw [beq_eq_false_iff_ne] at hd
        simp [List.replicate_succ, List.isPrefixOf, hd]]
    unfold wtBottom
    rw [hx]
    rw [reBottom_rep (by omega)]
    simp only [Option.getD_none, Nat.add_zero, MStream.adv, if_true]
  · -- a run of exactly 3: bold toggle (the world may record a candidate)
    intro cfg style w s pre rest hpre hr
    rw [entry cfg style w s pre rest 3 hpre (by omega)]
    unfold wtApos
    have hx : MStream.rest ⟨pre ++ (List.replicate 3 '\'' ++ rest), pre.length + 1⟩ =
        List.replicate 2 '\'' ++ rest := by
      simpa using hrest1 pre rest 3 0 (by omega)
    rw [hx]
    rw [show aposSkip (List.replicate 2 '\'' ++ rest) = none from by
      unfold aposSkip
      rw [countWhile_replicate_append rfl hr]
      rfl]
    rw [show lookBoldQuote (List.replicate 2 '\'' ++ rest) = false from by
      unfold lookBoldQuote
      rw [show (List.replicate 2 '\'' ++ rest) = '\'' :: '\'' :: rest from by
        simp [List.replicate_succ]]
      rw [prefix3_apos hr]
      rfl]
    rw [show (['\'', '\''].isPrefixOf (List.replicate 2 '\'' ++ rest)) = true from by
      simp [List.replicate_succ, List.isPrefixOf]]
    simp only [Bool.false_eq_true, if_false, if_true, MStream.adv]
    have hx2 : MStream.rest ⟨pre ++ (List.replicate 3 '\'' ++ rest), pre.length + 1 + 2⟩ =
        rest := by
      rw [show pre.length + 1 + 2 = pre.length + (1 + 2) from by omega]
      rw [hrest1 pre rest 3 2 (by omega)]
      simp
    rw [hx2]
    rw [show (['\'', '\''].isPrefixOf rest) = false from by
      cases rest with
      | nil => rfl
      | cons d t =>
        have hd := hr d rfl
        rw [beq_eq_false_iff_ne] at hd
        simp [List.isPrefixOf, beq_eq_false_iff_ne, Ne.symm hd]]
    simp only [Bool.or_false]
    by_cases hw : w.firstSingleLetterWord.isSome
    · refine ⟨w, ?_, rfl, rfl⟩
      rw [hw]
      simp only [Bool.not_true, Bool.false_eq_true, if_false]
    · rw [Bool.not_eq_true] at hw
      refine ⟨prepareItalicForCorrection w
        ⟨pre ++ (List.replicate 3 '\'' ++ rest), pre.length + 1 + 2⟩, ?_, ?_, ?_⟩
      · rw [hw]
        simp only [Bool.not_false, if_true]
      · unfold prepareItalicForCorrection
        dsimp only
        split_ifs <;> rfl
      · unfold prepareItalicForCorrection
        dsimp only
        split_ifs <;> rfl



/-- Witness for C6 at a run of five apostrophes: the first call toggles bold
consuming three apostrophes. -/
theorem claim_C6_apostrophe_runs_witness :
    eatWikiText sampleCfg "" freshWorld startState
        ⟨['x', '\'', '\'', '\'', '\'', '\'', 'x'], 1⟩ =
      some (tagApostrophesBold, { freshWorld with isBold := true }, startState,
        ⟨['x', '\'', '\'', '\'', '\'', '\'', 'x'], 4⟩) :=
  claim_C6_apostrophe_runs.2.1 sampleCfg "" freshWorld startState ['x'] ['x']
    (by decide) (by decide)

/-! ## Progress: matcher lower bounds -/

theorem plusLen_pos {p : Char → Bool} {l : List Char} {n : Nat}
    (h : plusLen p l = some n) : 1 ≤ n := by
  unfold plusLen at h
  dsimp only at h
  split at h
  · exact Option.noConfusion h
  · cases h; omega

theorem reWsTplName_pos {l : List Char} {n : Nat} (h : reWsTplName l = some n) :
    1 ≤ n := by
  unfold reWsTplName at h
  dsimp only at h
  split at h
  · exact Option.noConfusion h
  · cases h; omega

theorem reWsLinkText_pos {l : List Char} {n : Nat} (h : reWsLinkText l = some n) :
    1 ≤ n := by
  unfold reWsLinkText at h
  dsimp only at h
  split at h
  · exact Option.noConfusion h
  · cases h; omega

theorem reAttr_pos {b : Bool} {l : List Char} {n : Nat} (h : reAttr b l = some n) :
    1 ≤ n := by
  unfold reAttr at h
  dsimp only at h
  split at h
  · exact Option.noConfusion h
  · cases h; omega

theorem reWsPipeWs_pos {l : List Char} {n : Nat} (h : reWsPipeWs l = some n) :
    1 ≤ n := by
  unfold reWsPipeWs at h
  dsimp only at h
  split at h
  · cases h; omega
  · exact Option.noConfusion h

theorem reWsHashWs_pos {l : List Char} {n : Nat} (h : reWsHashWs l = some n) :
    1 ≤ n := by
  unfold reWsHashWs at h
  dsimp only at h
  split at h
  · cases h; omega
  · exact Option.noConfusion h

theorem reWsCloseTpl_pos {l : List Char} {n : Nat} (h : reWsCloseTpl l = some n) :
    1 ≤ n := by
  unfold reWsCloseTpl at h
  dsimp only at h
  split at h
  · cases h; omega
  · exact Option.noConfusion h

theorem reWsCloseLink_pos {l : List Char} {n : Nat} (h : reWsCloseLink l = some n) :
    1 ≤ n := by
  unfold reWsCloseLink at h
  dsimp only at h
  split at h
  · cases h; omega
  · exact Option.noConfusion h

theorem reWsCloseBracket_pos {l : List Char} {n : Nat}
    (h : reWsCloseBracket l = some n) : 1 ≤ n := by
  unfold reWsCloseBracket at h
  dsimp only at h
  split at h
  · cases h; omega
  · exact Option.noConfusion h

theorem reWsComment_pos {l : List Char} {n : Nat} (h : reWsComment l = some n) :
    1 ≤ n := by
  unfold reWsComment at h
  dsimp only at h
  split at h
  · split at h
    · cases h; omega
    · exact Option.noConfusion h
  · exact Option.noConfusion h

theorem rePunct_pos {l : List Char} {n : Nat} (h : rePunct l = some n) : 1 ≤ n := by
  unfold rePunct at h
  dsimp only at h
  split at h
  · exact Option.noConfusion h
  · split at h
    · split at h
      · exact Option.noConfusion h
      · cases h; omega
    · exact Option.noConfusion h

theorem reDuName_pos : ∀ {l : List Char} {n : Nat}, reDuName l = some n → 1 ≤ n := by
  intro l
  induction l with
  | nil => intro n h; exact Option.noConfusion h
  | cons c t ih =>
    intro n h
    unfold reDuName at h
    split at h
    · exact Option.noConfusion h
    · split at h
      · cases h; omega
      · match hx : reDuName t with
        | none => rw [hx] at h; exact Option.noConfusion h
        | some m => rw [hx, Option.map_some'] at h; cases h; omega

/-! ## Progress: stream and stack facts -/

theorem popTk_shrink {s s₁ : MwState} (h : popTk s = some s₁) :
    s₁.stack.length < s.stack.length := by
  unfold popTk at h
  split at h
  · exact Option.noConfusion h
  · next tk rest heq => cases h; simp [heq]

theorem prefix_rest_bound {p : List Char} {st : MStream}
    (h : p.isPrefixOf st.rest = true) (hp : p ≠ []) :
    st.pos + p.length ≤ st.str.length := by
  have h1 : p.length ≤ st.rest.length :=
    (List.isPrefixOf_iff_prefix.mp h).length_le
  have h2 : st.rest.length = st.str.length - st.pos := by
    simp [MStream.rest]
  have h3 : 1 ≤ p.length := by
    cases p with
    | nil => exact absurd rfl hp
    | cons a b => simp
  omega

theorem eol_false_pos {st : MStream} (h : st.eol = false) :
    st.pos < st.str.length := by
  unfold MStream.eol at h
  simpa using h

/-! ## Progress: monotone sub-steps -/

theorem eatHtmlEntity_mono (st : MStream) (style : String) :
    st.pos ≤ (eatHtmlEntity st style).2.pos := by
  unfold eatHtmlEntity
  dsimp only
  split_ifs <;> simp [MStream.adv] <;> omega

theorem eatNowiki_strict {style : String} {st : MStream} (h : st.eol = false) :
    st.pos < (eatNowiki style st).2.pos := by
  unfold eatNowiki
  dsimp only
  split_ifs with h1 h2
  · simp [MStream.adv]; omega
  · rw [h2] at h; exact Bool.noConfusion h
  · calc st.pos < (st.adv 1).pos := by simp [MStream.adv]
      _ ≤ _ := eatHtmlEntity_mono (st.adv 1) style

theorem wtBottom_mono (style : String) (w : World) (s : MwState) (st : MStream) :
    st.pos ≤ (wtBottom style w s st).2.2.2.pos := by
  unfold wtBottom
  dsimp only [MStream.adv]
  omega

theorem wtAmp_mono (style : String) (w : World) (s : MwState) (st : MStream) :
    st.pos ≤ (wtAmp style w s st).2.2.2.pos := by
  unfold wtAmp
  exact eatHtmlEntity_mono st style

theorem wtApos_mono (style : String) (w : World) (s : MwState) (st : MStream) :
    st.pos ≤ (wtApos style w s st).2.2.2.pos := by
  unfold wtApos
  dsimp only
  repeat' split
  all_goals first
    | (dsimp only [MStream.adv]; omega)
    | (refine le_trans ?_ (wtBottom_mono _ _ _ _); dsimp only [MStream.adv]; omega)

theorem wtOpenBracket_mono (cfg : Cfg) (style : String) (w : World) (s : MwState)
    (st : MStream) : st.pos ≤ (wtOpenBracket cfg style w s st).2.2.2.pos := by
  unfold wtOpenBracket
  dsimp only
  repeat' split
  all_goals first
    | (dsimp only [MStream.adv, MStream.backUp]; omega)
    | (refine le_trans ?_ (wtBottom_mono _ _ _ _)
       dsimp only [MStream.adv, MStream.backUp]; omega)

theorem wtOpenBrace_mono (cfg : Cfg) (style : String) (w : World) (s : MwState)
    (st : MStream) : st.pos ≤ (wtOpenBrace cfg style w s st).2.2.2.pos := by
  unfold wtOpenBrace
  dsimp only
  repeat' split
  all_goals first
    | (dsimp only [MStream.adv, MStream.backUp]; omega)
    | (refine le_trans ?_ (wtBottom_mono _ _ _ _)
       dsimp only [MStream.adv, MStream.backUp]; omega)

theorem eatBlock_mono {style term cl} {w : World} {s : MwState} {st : MStream}
    {out : StepRes} (hb : st.pos ≤ st.str.length)
    (h : eatBlock style term cl w s st = some out) :
    st.pos ≤ out.2.2.2.pos := by
  unfold eatBlock at h
  dsimp only at h
  repeat' split at h
  all_goals first
    | exact Option.noConfusion h
    | (cases h; dsimp only [MStream.adv, MStream.skipToEnd]; omega)

theorem strMkLower_len_le (l : List Char) (n : Nat) :
    (String.mk ((l.take n).map Char.toLower)).length ≤ n := by
  simp [String.length]

set_option maxHeartbeats 1000000 in
theorem wtLt_mono {cfg style} {w : World} {s : MwState} {st : MStream}
    {out : StepRes} (h : wtLt cfg style w s st = some out) :
    st.pos ≤ out.2.2.2.pos := by
  unfold wtLt at h
  dsimp only at h
  repeat' split at h
  any_goals (cases h; dsimp only [MStream.adv, MStream.backUp]; omega)
  any_goals (have hb := @prefix_rest_bound ['!', '-', '-'] _ (by assumption) (by simp); simp only [List.length_cons, List.length_nil] at hb; refine le_trans ?_ (eatBlock_mono ?_ h) <;> (dsimp only [MStream.adv] at hb ⊢; omega))
  any_goals (cases h; with_reducible refine le_trans ?_ (wtBottom_mono _ _ _ _); try simp only [*, Option.getD_some, String.length, List.length_map, List.length_take]; dsimp only [MStream.adv, MStream.backUp]; omega)
  all_goals (cases h; try simp only [*, Option.getD_some, String.length, List.length_map, List.length_take]; dsimp only [MStream.adv, MStream.backUp]; omega)

theorem wtTilde_mono (style : String) (w : World) (s : MwState) (st : MStream) :
    st.pos ≤ (wtTilde style w s st).2.2.2.pos := by
  unfold wtTilde
  split
  · dsimp only [MStream.adv]; omega
  · exact wtBottom_mono _ _ _ _

theorem wtUnderscore_mono (cfg : Cfg) (style : String) (w : World) (s : MwState)
    (st : MStream) : st.pos ≤ (wtUnderscore cfg style w s st).2.2.2.pos := by
  unfold wtUnderscore
  dsimp only
  repeat' split
  all_goals first
    | (dsimp only [MStream.adv, MStream.backUp]; omega)
    | (refine le_trans ?_ (wtBottom_mono _ _ _ _); dsimp only [MStream.adv, MStream.backUp]; omega)
    | (have hl := reDuName_pos (l := _) (by assumption); dsimp only [MStream.adv, MStream.backUp]; omega)

theorem wtSpaceDefault_mono (cfg : Cfg) (style : String) (w : World) (s : MwState)
    (st : MStream) : st.pos ≤ (wtSpaceDefault cfg style w s st).2.2.2.pos := by
  unfold wtSpaceDefault
  dsimp only
  repeat' split
  all_goals first
    | (dsimp only [MStream.adv, MStream.backUp]; omega)
    | (refine le_trans ?_ (wtBottom_mono _ _ _ _); dsimp only [MStream.adv, MStream.backUp]; omega)

theorem wikiMain_mono {cfg : Cfg} {style : String} {w : World} {s : MwState}
    {och : Option Char} {st : MStream} {out : StepRes}
    (h : wikiMain cfg style w s och st = some out) : st.pos ≤ out.2.2.2.pos := by
  unfold wikiMain at h
  repeat' split at h
  all_goals first
    | (cases h; with_reducible exact wtBottom_mono _ _ _ _)
    | (cases h; with_reducible exact wtAmp_mono _ _ _ _)
    | (cases h; with_reducible exact wtApos_mono _ _ _ _)
    | (cases h; with_reducible exact wtOpenBracket_mono _ _ _ _ _)
    | (cases h; with_reducible exact wtOpenBrace_mono _ _ _ _ _)
    | (with_reducible exact wtLt_mono h)
    | (cases h; with_reducible exact wtTilde_mono _ _ _ _)
    | (cases h; with_reducible exact wtUnderscore_mono _ _ _ _ _)
    | (cases h; with_reducible exact wtSpaceDefault_mono _ _ _ _ _)

theorem wikiSolBrace_mono {cfg : Cfg} {style : String} {w : World} {s : MwState}
    {ch : Char} {st : MStream} {out : StepRes}
    (h : wikiSolBrace cfg style w s ch st = some out) : st.pos ≤ out.2.2.2.pos := by
  unfold wikiSolBrace at h
  dsimp only at h
  split at h
  · cases h; dsimp only [MStream.adv]; omega
  · exact wikiMain_mono h

theorem peekCh_none_eol {st : MStream} (h : st.peekCh = none) : st.eol = true := by
  unfold MStream.peekCh at h
  unfold MStream.eol
  rw [List.get?_eq_none] at h
  simpa using h

theorem nextCh_snd_strict (st : MStream) (hEol : st.eol = false) :
    st.pos < (st.nextCh).2.pos := by
  unfold MStream.nextCh
  split
  · dsimp only [MStream.adv]; omega
  · rw [peekCh_none_eol (by assumption)] at hEol; exact Bool.noConfusion hEol

set_option maxHeartbeats 1000000 in
theorem wikiSol_strict {cfg : Cfg} {style : String} {w : World} {s : MwState}
    {st : MStream} {out : StepRes} (hEol : st.eol = false)
    (h : eatWikiText.wikiSol cfg style w s st = some out) :
    st.pos < out.2.2.2.pos := by
  have h1 := nextCh_snd_strict st hEol
  unfold eatWikiText.wikiSol at h
  dsimp only at h
  repeat' split at h
  any_goals (cases h; dsimp only [MStream.adv, MStream.backUp] at h1 ⊢; omega)
  any_goals (exact lt_of_lt_of_le h1 (wikiMain_mono h))
  all_goals (refine lt_of_lt_of_le ?_ (wikiSolBrace_mono h); dsimp only [MStream.adv] at h1 ⊢; omega)

theorem eatWikiText_strict {cfg : Cfg} {style : String} {w : World} {s : MwState}
    {st : MStream} {out : StepRes} (hWf : WfCfg cfg) (hEol : st.eol = false)
    (h : eatWikiText cfg style w s st = some out) : st.pos < out.2.2.2.pos := by
  unfold eatWikiText at h
  repeat' split at h
  any_goals (exact wikiSol_strict hEol h)
  any_goals (exact lt_of_lt_of_le (nextCh_snd_strict st hEol) (wikiMain_mono h))
  all_goals (cases h; have hn := hWf _ _ (by assumption); dsimp only [MStream.adv]; omega)

/-- C1 (amended): one call to the basic wikitext tokenizer `eatWikiText`
strictly advances the stream whenever the cursor is not already at the end of
the line, for any well-formed configuration; the unrestricted claim about
`mediawiki.token` does not hold. -/
theorem claim_C1_eatWikiText_strict (cfg : Cfg) (style : String) (w : World)
    (s : MwState) (st : MStream) (out : StepRes) (hWf : WfCfg cfg)
    (hEol : st.eol = false) (h : eatWikiText cfg style w s st = some out) :
    st.pos < out.2.2.2.pos :=
  eatWikiText_strict hWf hEol h

theorem claim_C1_eatWikiText_strict_witness :
    WfCfg sampleCfg ∧ MStream.eol ⟨lineX, 0⟩ = false ∧
    (MStream.mk lineX 0).pos <
      ((eatWikiText sampleCfg "" freshWorld startState ⟨lineX, 0⟩).getD
        ("", freshWorld, startState, ⟨lineX, 0⟩)).2.2.2.pos :=
  ⟨sampleCfg_wf, rfl,
    claim_C1_eatWikiText_strict sampleCfg "" freshWorld startState ⟨lineX, 0⟩
      ((eatWikiText sampleCfg "" freshWorld startState ⟨lineX, 0⟩).getD
        ("", freshWorld, startState, ⟨lineX, 0⟩))
      sampleCfg_wf rfl rfl⟩

/-- C1 counterexample: after tokenizing the line `{{foo` from the start state,
the next `mediawiki.token` call on the following line `x` succeeds but leaves
the stream position at 0, the position it started from — `token` does not
always consume a strictly positive number of characters. -/
theorem claim_C1_token_no_advance :
    ((tokenizeLine sampleCfg freshWorld startState lineTplOpen).bind fun r =>
      mediawikiToken sampleCfg 32 r.1 r.2.1 ⟨lineX, 0⟩).map
        (fun out => out.2.2.2.pos) = some (MStream.mk lineX 0).pos := by
  rfl

end MwMode
